import Mathlib

/-!
Verification development for the media assembly pipeline of the
gemini-voice-drama-studio repository.

The audio utilities (`src/utils/audioUtils.ts`) and the batch workflow
(`App.tsx` handlers, `BatchPage` batch loops, `batchStorageService`) are
shallowly embedded below.  Float samples are modelled as exact rationals;
machine timestamps and sample counts as naturals; fallible operations as
`Except`-valued functions; the browser blob store as a function from string
keys to optional stored values.  External collaborators (TTS providers, the
lamejs encoder, image decoding, YouTube) are parameters of the embedded
functions, mirroring the fact that the repository invokes them as opaque
asynchronous calls.
-/

namespace VoiceDrama

/-- A decoded Web Audio `AudioBuffer`: a sample rate in Hz and per-channel
float sample data (samples modelled as exact rationals). -/
structure AudioBuffer where
  sampleRate : ℕ
  channelData : List (List ℚ)
deriving Repr, DecidableEq

/-- `buffer.numberOfChannels`. -/
def AudioBuffer.numberOfChannels (b : AudioBuffer) : ℕ :=
  b.channelData.length

/-- `buffer.length`: the per-channel frame count (all channels of a Web Audio
buffer have the same length; we read the first channel). -/
def AudioBuffer.frameCount (b : AudioBuffer) : ℕ :=
  (b.channelData.headD []).length

/-- `buffer.duration = buffer.length / buffer.sampleRate` in seconds. -/
def AudioBuffer.duration (b : AudioBuffer) : ℚ :=
  (b.frameCount : ℚ) / (b.sampleRate : ℚ)

/-- A buffer the platform can actually hand out: `createBuffer` and
`decodeAudioData` reject zero frame counts and zero sample rates. -/
def AudioBuffer.wellFormed (b : AudioBuffer) : Prop :=
  0 < b.frameCount ∧ 0 < b.sampleRate

instance (b : AudioBuffer) : Decidable b.wellFormed := by
  unfold AudioBuffer.wellFormed; infer_instance

/-- The export sample rate hard-coded in `mergeAudioBuffers`
(`audioUtils.ts` line 66): 44100 Hz. -/
def targetSampleRate : ℕ := 44100

/-- `buffers.reduce((acc, b) => acc + b.duration, 0)` (`audioUtils.ts`
line 70). -/
def totalDuration (buffers : List AudioBuffer) : ℚ :=
  buffers.foldl (fun acc b => acc + b.duration) 0

/-- `Math.ceil(totalDuration * 44100)` (`audioUtils.ts` line 71). -/
def totalLength (buffers : List AudioBuffer) : ℕ :=
  (⌈totalDuration buffers * (targetSampleRate : ℚ)⌉).toNat

/-- The start times assigned by the scheduling loop of `mergeAudioBuffers`
(lines 76-83): `currentOffset` starts at `t` and each clip advances it by its
own duration, so every clip starts at the running total of the durations of
the clips placed before it. -/
def startOffsetsFrom (t : ℚ) : List AudioBuffer → List ℚ
  | [] => []
  | b :: bs => t :: startOffsetsFrom (t + b.duration) bs

/-- Start times of all clips, with `currentOffset` initialised to 0. -/
def startOffsets (buffers : List AudioBuffer) : List ℚ :=
  startOffsetsFrom 0 buffers

/-- Contribution of one scheduled source node to the offline render at output
frame `n`.  Sample-exact placement is modelled for mono sources already at the
context rate (44100 Hz), which is the resampling-free case; the platform
resampling applied by `OfflineAudioContext` to sources at other rates is
behaviour of the browser, not of this repository, and is not modelled
(such a source contributes 0 here; no theorem below depends on that branch). -/
def contribAt (b : AudioBuffer) (startTime : ℚ) (n : ℕ) : ℚ :=
  if b.sampleRate = targetSampleRate ∧ b.numberOfChannels = 1 then
    let start : ℚ := startTime * (targetSampleRate : ℚ)
    if start.den = 1 ∧ start.num ≤ (n : ℤ) ∧ (n : ℤ) < start.num + (b.frameCount : ℤ) then
      (b.channelData.headD []).getD (n - start.num.toNat) 0
    else 0
  else 0

/-- The mixed sample at output frame `n`: every source connected to the
destination contributes, summed (Web Audio mixes connected sources by
summation). -/
def mixAt (buffers : List AudioBuffer) (n : ℕ) : ℚ :=
  ((buffers.zip (startOffsets buffers)).map (fun p => contribAt p.1 p.2 n)).sum

/-- Errors surfaced by the platform audio API.  `new OfflineAudioContext(1,
0, 44100)` rejects a zero buffer length with a `NotSupportedError`; there is
no typed empty-input error anywhere in `mergeAudioBuffers`. -/
inductive WebAudioError where
  | notSupportedError
deriving Repr, DecidableEq

/-- `mergeAudioBuffers` (`audioUtils.ts` lines 62-86): compute the total
duration, allocate a mono offline context of `ceil(totalDuration * 44100)`
frames at 44100 Hz, schedule each clip at the running duration total, and
render.  Allocating a zero-length context throws. -/
def mergeAudioBuffers (buffers : List AudioBuffer) : Except WebAudioError AudioBuffer :=
  let totalLen := totalLength buffers
  if totalLen = 0 then .error .notSupportedError
  else .ok { sampleRate := targetSampleRate
             channelData := [(List.range totalLen).map (mixAt buffers)] }

/-- `Math.max(-1, Math.min(1, x))` (`audioUtils.ts` line 126). -/
def clamp (x : ℚ) : ℚ := max (-1) (min 1 x)

/-- The `| 0` coercion of JavaScript on an in-range value: truncation toward
zero. -/
def truncToZero (q : ℚ) : ℤ := if 0 ≤ q then ⌊q⌋ else ⌈q⌉

/-- The 16-bit quantizer of `bufferToWav` (`audioUtils.ts` lines 126-128):
clamp to `[-1, 1]`, then
`sample = (0.5 + sample < 0 ? sample * 32768 : sample * 32767) | 0`.
Note the comparison is `(0.5 + sample) < 0`, i.e. the 32768 scale is used
only below -0.5, and `| 0` truncates toward zero (no rounding). -/
def encodeSample (x : ℚ) : ℤ :=
  let s := clamp x
  truncToZero (if 0.5 + s < 0 then s * 32768 else s * 32767)

/-- The word-level content of the WAV container written by `bufferToWav`:
header fields together with the interleaved 16-bit sample words. -/
structure WavFile where
  numChannels : ℕ
  sampleRate : ℕ
  bitsPerSample : ℕ
  data : List ℤ
deriving Repr, DecidableEq

/-- The interleaved data section of `bufferToWav` (lines 123-133): for each
frame position, one encoded 16-bit word per channel. -/
def interleavedData (b : AudioBuffer) : List ℤ :=
  ((List.range b.frameCount).map
    (fun pos => b.channelData.map (fun ch => encodeSample (ch.getD pos 0)))).flatten

/-- A raster image as produced by a successful `Image` load: its natural
pixel dimensions. -/
structure LoadedImage where
  width : ℕ
  height : ℕ
deriving Repr, DecidableEq

/-- An image as placed on the canvas by `drawImage` (lines 305-311): scaled
by `min(canvasW/imgW, canvasH/imgH)` and centered. -/
structure PlacedImage where
  base64 : String
  x : ℚ
  y : ℚ
  drawWidth : ℚ
  drawHeight : ℚ
deriving Repr, DecidableEq

/-- One captured video frame: the canvas is first filled with solid black
(lines 302-303); `image = none` means nothing further was drawn. -/
structure Frame where
  image : Option PlacedImage
deriving Repr, DecidableEq

/-- The produced WebM container: captured frames with their hold durations in
seconds, the trailing buffer in milliseconds, the audio segments played into
the capture graph, and the capture configuration. -/
structure WebmVideo where
  width : ℕ
  height : ℕ
  bitrate : ℕ
  frames : List (Frame × ℚ)
  trailingMs : ℕ
  audio : List AudioBuffer
deriving Repr, DecidableEq

/-- A browser `Blob` with its declared MIME type. -/
inductive BlobContent where
  | wav (file : WavFile)
  | mp3 (bytes : List ℕ)
  | webm (video : WebmVideo)
deriving Repr, DecidableEq

structure MediaBlob where
  mimeType : String
  content : BlobContent
deriving Repr, DecidableEq

/-- `bufferToWav` (`audioUtils.ts` lines 91-146): writes the RIFF/WAVE header
(16 bits per sample hard-coded, little-endian) followed by the interleaved
quantized samples, and returns a blob of type `audio/wav`.  It is a total
function: it never fails on a well-formed buffer. -/
def bufferToWav (b : AudioBuffer) : MediaBlob :=
  { mimeType := "audio/wav"
    content := .wav
      { numChannels := b.numberOfChannels
        sampleRate := b.sampleRate
        bitsPerSample := 16
        data := interleavedData b } }

/-- The 16-bit conversion used by `bufferToMp3` (lines 178-181):
`s < 0 ? s * 0x8000 : s * 0x7FFF` after clamping, then `Int16Array`
assignment truncation. -/
def mp3Int16 (x : ℚ) : ℤ :=
  let s := clamp x
  truncToZero (if s < 0 then s * 32768 else s * 32767)

/-- The samples handed to the lamejs encoder: channel 0, converted to 16-bit
integers. -/
def mp3InputSamples (b : AudioBuffer) : List ℤ :=
  (b.channelData.headD []).map mp3Int16

/-- `bufferToMp3` (`audioUtils.ts` lines 167-215).  The lamejs `Mp3Encoder`
is an external collaborator reached through a dynamic import; it is modelled
as a function `mp3Encoder` that consumes the 16-bit samples (the source feeds
them in 1152-sample blocks and concatenates the emitted chunks plus the final
flush, all inside the collaborator boundary) and either returns the encoded
bytes or throws.  The whole body sits in a `try` whose `catch` falls back to
`bufferToWav`, so an encoder failure or an unavailable encoder module yields
the WAV blob instead of an exception. -/
def bufferToMp3 (mp3Encoder : List ℤ → Except String (List ℕ))
    (b : AudioBuffer) : MediaBlob :=
  match mp3Encoder (mp3InputSamples b) with
  | .ok bytes => { mimeType := "audio/mp3", content := .mp3 bytes }
  | .error _ => bufferToWav b

/-- One audio/visual segment of the slideshow renderer (`WebmSegment`,
`audioUtils.ts` lines 224-228).  An empty string models a missing
`imageBase64` (falsy in JavaScript). -/
structure WebmSegment where
  audioBuffer : AudioBuffer
  imageBase64 : String
  duration : ℚ
deriving Repr, DecidableEq

inductive WebmResolution where
  | r720p | r1080p | r4k
deriving Repr, DecidableEq

inductive WebmQuality where
  | draft | high | ultra
deriving Repr, DecidableEq

structure WebmOptions where
  resolution : WebmResolution := .r1080p
  quality : WebmQuality := .high
deriving Repr, DecidableEq

/-- The resolution switch of `createDynamicWebmVideo` (lines 252-259). -/
def resolveDimensions : WebmResolution → ℕ × ℕ
  | .r720p => (1280, 720)
  | .r1080p => (1920, 1080)
  | .r4k => (3840, 2160)

/-- The quality switch of `createDynamicWebmVideo` (lines 261-267), in bits
per second. -/
def resolveBitrate : WebmQuality → ℕ
  | .draft => 2500000
  | .high => 8000000
  | .ultra => 16000000

/-- The set of images preloaded before capture starts (lines 281-297): the
default cover when supplied, plus every truthy segment image, each unique
image loaded once. -/
def uniqueImages (segments : List WebmSegment) (defaultCover : Option String) : List String :=
  ((match defaultCover with
    | some c => [c]
    | none => []) ++ (segments.map (·.imageBase64)).filter (· ≠ "")).dedup

/-- The image preload of `createDynamicWebmVideo` (lines 289-297): the
`Promise.all` over the unique images; every image must decode, and the first
failure rejects the whole preload. -/
def loadImages (loadImage : String → Except String LoadedImage) :
    List String → Except String (List (String × LoadedImage))
  | [] => .ok []
  | b64 :: rest =>
    match loadImage b64 with
    | .error e => .error e
    | .ok img =>
      match loadImages loadImage rest with
      | .error e => .error e
      | .ok others => .ok ((b64, img) :: others)

/-- The `drawImage` helper (lines 300-312): look the requested image up in
the preload cache, falling back to the default cover when it is absent; fill
the canvas with black; if an image was found, draw it centered and scaled to
fit.  A segment with no image and no fallback leaves the solid black frame. -/
def drawImageFrame (cache : String → Option LoadedImage) (defaultCover : Option String)
    (canvasW canvasH : ℕ) (base64 : String) : Frame :=
  let looked : Option (String × LoadedImage) :=
    match cache base64 with
    | some i => some (base64, i)
    | none =>
      match defaultCover with
      | some c => (cache c).map (fun i => (c, i))
      | none => none
  match looked with
  | none => { image := none }
  | some (b64, img) =>
    let scale : ℚ := min ((canvasW : ℚ) / (img.width : ℚ)) ((canvasH : ℚ) / (img.height : ℚ))
    { image := some
        { base64 := b64
          x := ((canvasW : ℚ) - (img.width : ℚ) * scale) / 2
          y := ((canvasH : ℚ) - (img.height : ℚ) * scale) / 2
          drawWidth := (img.width : ℚ) * scale
          drawHeight := (img.height : ℚ) * scale } }

/-- `createDynamicWebmVideo` (`audioUtils.ts` lines 245-378).  Image decoding
is an external collaborator (`Image.onload`/`onerror`), modelled by the
`loadImage` parameter; a failed preload rejects the whole render before the
recorder starts.  After a successful preload the recorder is started, each
segment in order draws its frame (black background plus the cached image or
the fallback), plays its audio buffer into the capture graph and holds for
its duration; a fixed 500 ms trailing buffer follows the last segment; then
the recorder is stopped and the collected chunks become the blob.  There is
no empty-segment check and no missing-image check: an empty list simply
records no segment frames, and a segment with no resolvable image records the
black canvas. -/
def createDynamicWebmVideo (loadImage : String → Except String LoadedImage)
    (segments : List WebmSegment) (defaultCover : Option String := none)
    (options : WebmOptions := {}) : Except String WebmVideo :=
  let dims := resolveDimensions options.resolution
  let bitrate := resolveBitrate options.quality
  match loadImages loadImage (uniqueImages segments defaultCover) with
  | .error e => .error e
  | .ok loaded =>
    let cache : String → Option LoadedImage := fun k =>
      (loaded.find? (fun p => p.1 = k)).map (·.2)
    .ok { width := dims.1
          height := dims.2
          bitrate := bitrate
          frames := segments.map
            (fun s => (drawImageFrame cache defaultCover dims.1 dims.2 s.imageBase64, s.duration))
          trailingMs := 500
          audio := segments.map (·.audioBuffer) }

/-- `createWebmVideo` (lines 383-398): the single-image wrapper used by the
batch workflow.  The source decodes the WAV blob back into a buffer before
delegating; the decode collaborator is a parameter here, and the decoded
buffer is handed in directly by the caller of the model. -/
def createWebmVideo (loadImage : String → Except String LoadedImage)
    (audioBuffer : AudioBuffer) (imageBase64 : String) (duration : ℚ) :
    Except String WebmVideo :=
  createDynamicWebmVideo loadImage
    [{ audioBuffer := audioBuffer, imageBase64 := imageBase64, duration := duration }]
    (some imageBase64)

/-! ### Batch workflow data model (`batchTypes.ts`, `types.ts`) -/

inductive BatchJobStatus where
  | pending
  | script_ready
  | generating
  | files_ready
  | uploading
  | uploaded
  | error
deriving Repr, DecidableEq

inductive ItemType where
  | speech | sfx
deriving Repr, DecidableEq

structure CastMember where
  name : String
  voice : String
  voiceType : String
  elevenLabsVoiceId : Option String := none
  voicePrompt : Option String := none
deriving Repr, DecidableEq

/-- A script line (`types.ts` `ScriptItem`), restricted to the fields the
batch pipeline reads and writes; an absent optional string is `none` (the
presentational image/video fields are omitted). -/
structure ScriptItem where
  id : String
  type : ItemType
  character : Option String := none
  text : Option String := none
  expression : Option String := none
  sfxDescription : Option String := none
  audioKey : Option String := none
  audioFormat : Option String := none
deriving Repr, DecidableEq

structure GeneratedPodcastInfo where
  podcastName : String
  episodeTitle : String
  description : String
  coverPrompt : String
  tags : List String := []
deriving Repr, DecidableEq

/-- `BatchJobScriptData` (`batchTypes.ts`); the presentational `scenes` list
is omitted. -/
structure BatchJobScriptData where
  cast : List CastMember
  items : List ScriptItem
  podcastInfo : Option GeneratedPodcastInfo := none
deriving Repr, DecidableEq

structure BatchJobFiles where
  mp3Key : Option String := none
  webmKey : Option String := none
  coverKey : Option String := none
deriving Repr, DecidableEq

structure BatchJob where
  id : String
  storyText : String
  status : BatchJobStatus
  createdAt : ℕ := 0
  updatedAt : ℕ := 0
  podcastTitle : Option String := none
  episodeTitle : Option String := none
  podcastDescription : Option String := none
  scriptData : Option BatchJobScriptData := none
  files : Option BatchJobFiles := none
  youtubeVideoId : Option String := none
  youtubeUrl : Option String := none
  uploadedAt : Option ℕ := none
  error : Option String := none
deriving Repr, DecidableEq

/-! ### Storage service (`batchStorageService.ts`) -/

/-- A value in the IndexedDB object store: either an audio/cover base64
string (`saveItemAudioBase64`) or a media blob (`saveAudioBlob`). -/
inductive StoredValue where
  | b64 (data : String)
  | blob (b : MediaBlob)
deriving Repr, DecidableEq

/-- The persistent state the workflow mutates: the job metadata list
(localStorage `batchJobs`), the blob store (IndexedDB `audioFiles`, modelled
as a lookup function), and the history of status values persisted by
`updateBatchJob` (newest last), recorded per job id for the monotonicity
theorems. -/
structure St where
  jobs : List BatchJob
  store : String → Option StoredValue
  trace : List (String × BatchJobStatus)

/-- `generateAudioKey` (`batchStorageService.ts` line 2111):
`jobId + "_" + type + "_" + Date.now()`; the current timestamp is passed in
by the caller of the model. -/
def generateAudioKey (jobId : String) (type : String) (now : ℕ) : String :=
  jobId ++ "_" ++ type ++ "_" ++ toString now

/-- `generateItemAudioKey` (line 2116): `jobId + "_item_" + itemId`. -/
def generateItemAudioKey (jobId : String) (itemId : String) : String :=
  jobId ++ "_item_" ++ itemId

def saveAudioBlob (key : String) (b : MediaBlob) (st : St) : St :=
  { st with store := fun k => if k = key then some (.blob b) else st.store k }

def saveItemAudioBase64 (key : String) (data : String) (st : St) : St :=
  { st with store := fun k => if k = key then some (.b64 data) else st.store k }

def deleteAudioBlob (key : String) (st : St) : St :=
  { st with store := fun k => if k = key then none else st.store k }

def loadAudioBlob (key : String) (st : St) : Option StoredValue :=
  st.store key

def getBatchJob (id : String) (st : St) : Option BatchJob :=
  st.jobs.find? (fun j => j.id = id)

/-- The `Partial<BatchJob>` patches the modelled call sites pass to
`updateBatchJob`: the status-only and status-plus-error shapes.  Full-record
updates go through `updateBatchJobFull` below. -/
structure JobUpdates where
  status : Option BatchJobStatus := none
  error : Option String := none
deriving Repr, DecidableEq

def applyUpdates (j : BatchJob) (u : JobUpdates) (now : ℕ) : BatchJob :=
  { j with
    status := u.status.getD j.status
    error := match u.error with
      | some e => some e
      | none => j.error
    updatedAt := now }

/-- `updateBatchJob` (lines 1983-1991): read all jobs, spread-merge the
patch into the record with the given id (stamping `updatedAt`), write all
jobs back; a missing id is a no-op.  When the patch carries a status and the
job exists, that persisted status is appended to the trace. -/
def updateBatchJob (id : String) (u : JobUpdates) (now : ℕ) (st : St) : St :=
  { st with
    jobs := st.jobs.map (fun j => if j.id = id then applyUpdates j u now else j)
    trace := st.trace ++
      (match u.status with
       | some s => if st.jobs.any (fun j => j.id = id) then [(id, s)] else []
       | none => []) }

/-- `updateBatchJob` invoked with a complete job record (as the step handlers
do after building `updatedJob`): spreading every field replaces the stored
record wholesale, stamping `updatedAt`. -/
def updateBatchJobFull (id : String) (newJob : BatchJob) (now : ℕ) (st : St) : St :=
  { st with
    jobs := st.jobs.map (fun j => if j.id = id then { newJob with updatedAt := now } else j)
    trace := st.trace ++
      (if st.jobs.any (fun j => j.id = id) then [(id, newJob.status)] else []) }

/-- The blob keys `deleteJobAudioFiles` (lines 2009-2034) collects: the mp3,
webm and cover keys of `job.files`, then every script item audio key, in
that order. -/
def referencedBlobKeys (job : BatchJob) : List String :=
  (job.files.bind (·.mp3Key)).toList ++
    (job.files.bind (·.webmKey)).toList ++
    (job.files.bind (·.coverKey)).toList ++
    (match job.scriptData with
     | some sd => sd.items.filterMap (·.audioKey)
     | none => [])

/-- `deleteJobAudioFiles`: delete every collected key from the blob store. -/
def deleteJobAudioFiles (job : BatchJob) (st : St) : St :=
  (referencedBlobKeys job).foldl (fun acc k => deleteAudioBlob k acc) st

/-- `deleteBatchJob` (lines 1993-2006): look the job up, delete all blobs it
references, then remove its metadata record. -/
def deleteBatchJob (id : String) (st : St) : St :=
  let st1 :=
    match getBatchJob id st with
    | some job => deleteJobAudioFiles job st
    | none => st
  { st1 with jobs := st1.jobs.filter (fun j => j.id ≠ id) }

/-! ### Workflow step handlers (`App.tsx`) and batch loops (`BatchPage.tsx`)

External collaborators (script generator, TTS registry, SFX generator, cover
art generator, lamejs, image decoding, YouTube) are bundled into an
environment record; each is an opaque function that may fail. -/

/-- The result of `ttsRegistry.generateSpeech`: the declared output format
(`"pcm"` or a compressed format) and the audio bytes as base64. -/
structure TtsResult where
  format : String
  audioBase64 : String
deriving Repr, DecidableEq

structure ScriptGenResult where
  cast : List CastMember
  items : List ScriptItem
  podcastInfo : Option GeneratedPodcastInfo := none
deriving Repr, DecidableEq

structure Env where
  scriptGen : String → Except String ScriptGenResult
  ttsProvider : String
  elevenLabsVoices : List (String × String)
  tts : String → String → ScriptItem → Except String TtsResult
  decodePCM : String → AudioBuffer
  decodeFile : String → AudioBuffer
  sfxGen : String → Except String String
  geminiApiKey : Bool
  elevenLabsApiKey : Bool
  coverGen : String → Except String String
  mp3Encoder : List ℤ → Except String (List ℕ)
  loadImage : String → Except String LoadedImage
  token : Option String
  upload : StoredValue → Except String (String × String)

/-- JavaScript truthiness of an optional string: present and non-empty. -/
def truthy : Option String → Bool
  | some s => s != ""
  | none => false

/-- `a || b` for an optional string `a` and a fallback `b`. -/
def orTruthy (a : Option String) (b : String) : String :=
  match a with
  | some s => if s = "" then b else s
  | none => b

/-- The voice resolution in `handleGenerateScript` (`App.tsx` lines
272-280): when the TTS provider is ElevenLabs, the member names an
ElevenLabs voice id and the voice list is loaded, resolve the display name
and mark the member `elevenlabs`; otherwise mark it `gemini`. -/
def resolveCastMember (env : Env) (member : CastMember) : CastMember :=
  if env.ttsProvider = "elevenlabs" ∧ truthy member.elevenLabsVoiceId = true ∧
      env.elevenLabsVoices.length > 0 then
    match env.elevenLabsVoices.find? (fun v => some v.1 = member.elevenLabsVoiceId) with
    | some v => { member with voiceType := "elevenlabs", voice := v.2 }
    | none => { member with voiceType := "gemini" }
  else { member with voiceType := "gemini" }

/-- `handleGenerateScript` (`App.tsx` lines 261-295): ask the script
generator, resolve cast voices, persist the job as `script_ready` with the
script data.  A generator failure propagates to the caller (which marks the
job `error`). -/
def handleGenerateScript (env : Env) (job : BatchJob) (now : ℕ) (st : St) :
    St × Except String BatchJob :=
  match env.scriptGen job.storyText with
  | .error e => (st, .error e)
  | .ok result =>
    let finalCast := result.cast.map (resolveCastMember env)
    let updatedJob := { job with
      status := .script_ready
      scriptData := some
        { cast := finalCast, items := result.items, podcastInfo := result.podcastInfo } }
    (updateBatchJobFull job.id updatedJob now st, .ok updatedJob)

/-- `const providerId = castMember?.voiceType || 'gemini'` (line 331). -/
def speechProviderId (castMember : Option CastMember) : String :=
  match castMember with
  | some c => if c.voiceType = "" then "gemini" else c.voiceType
  | none => "gemini"

/-- Lines 334-336: for ElevenLabs use the voice id when present, otherwise
the voice name, defaulting to `Puck`. -/
def speechVoiceId (providerId : String) (castMember : Option CastMember) : String :=
  match castMember with
  | some c =>
    if providerId = "elevenlabs" ∧ truthy c.elevenLabsVoiceId = true then
      c.elevenLabsVoiceId.getD ""
    else if c.voice = "" then "Puck" else c.voice
  | none => "Puck"

/-- `const castMember = item.character ? cast.find(c => c.name ===
item.character) : undefined` (line 322). -/
def speechCastMember (cast : List CastMember) (item : ScriptItem) : Option CastMember :=
  if truthy item.character = true then
    cast.find? (fun c => some c.name = item.character)
  else none

/-- The per-item loop of `handleGenerateFiles` (`App.tsx` lines 318-382).
Returns the state after the item-level blob saves, the decoded audio buffers
collected so far in item order, the updated item records, and—when a sound
effect synthesis call threw—the propagated error.  A speech synthesis or
decode failure is caught (lines 365-367): the item is skipped, keeping its
record unchanged.  The SFX call (lines 370-381) is not guarded by a `try`,
so its failure aborts the whole loop. -/
def processItems (env : Env) (jobId : String) (cast : List CastMember) :
    List ScriptItem → St → St × List AudioBuffer × List ScriptItem × Option String
  | [], st => (st, [], [], none)
  | item :: rest, st =>
    if item.type = ItemType.speech ∧ truthy item.text = true then
      let castMember := speechCastMember cast item
      let providerId := speechProviderId castMember
      let voiceId := speechVoiceId providerId castMember
      match env.tts providerId voiceId item with
      | .ok result =>
        let buffer :=
          if result.format = "pcm" then env.decodePCM result.audioBase64
          else env.decodeFile result.audioBase64
        let audioKey := generateItemAudioKey jobId item.id
        let st1 := saveItemAudioBase64 audioKey result.audioBase64 st
        let item1 := { item with
          audioKey := some audioKey
          audioFormat := some (if result.format = "pcm" then "pcm" else "mp3") }
        match processItems env jobId cast rest st1 with
        | (st2, bufs, items2, e) => (st2, buffer :: bufs, item1 :: items2, e)
      | .error _ =>
        match processItems env jobId cast rest st with
        | (st2, bufs, items2, e) => (st2, bufs, item :: items2, e)
    else if item.type = ItemType.sfx ∧ truthy item.sfxDescription = true ∧
        env.elevenLabsApiKey = true then
      match env.sfxGen (item.sfxDescription.getD "") with
      | .error e => (st, [], item :: rest, some e)
      | .ok base64 =>
        let buffer := env.decodeFile base64
        let audioKey := generateItemAudioKey jobId item.id
        let st1 := saveItemAudioBase64 audioKey base64 st
        let item1 := { item with audioKey := some audioKey, audioFormat := some "mp3" }
        match processItems env jobId cast rest st1 with
        | (st2, bufs, items2, e) => (st2, buffer :: bufs, item1 :: items2, e)
    else
      match processItems env jobId cast rest st with
      | (st2, bufs, items2, e) => (st2, bufs, item :: items2, e)

/-- `handleGenerateFiles` (`App.tsx` lines 297-454): mark the job
`generating`, synthesize and persist per-item audio, merge the collected
clips, encode mp3 (with WAV fallback), attempt cover art (failure caught),
render the WebM video when a cover exists (failure propagates), save the
artifacts under derived keys, and persist the job as `files_ready` with the
new file references.  Failures that escape put the caller in charge of the
`error` transition. -/
def handleGenerateFiles (env : Env) (job : BatchJob) (now : ℕ) (st : St) :
    St × Except String BatchJob :=
  match job.scriptData with
  | none => (st, .error "No script data")
  | some sd =>
    let st1 := updateBatchJob job.id { status := some .generating } now st
    let podcastInfo := sd.podcastInfo
    let episodeTitle :=
      orTruthy (podcastInfo.map (·.episodeTitle)) (orTruthy job.episodeTitle "New Episode")
    let podcastDescription :=
      orTruthy (podcastInfo.map (·.description))
        (orTruthy job.podcastDescription (job.storyText.take 500))
    let podcastTitle :=
      orTruthy (podcastInfo.map (·.podcastName)) (orTruthy job.podcastTitle "Podcast")
    let r := processItems env job.id sd.cast sd.items st1
    let st2 := r.1
    let audioBuffers := r.2.1
    let updatedItems := r.2.2.1
    let errOpt := r.2.2.2
    match errOpt with
    | some e => (st2, .error e)
    | none =>
      if audioBuffers = [] then (st2, .error "No audio generated")
      else
        match mergeAudioBuffers audioBuffers with
        | .error _ => (st2, .error "NotSupportedError")
        | .ok mergedBuffer =>
            let mp3Blob := bufferToMp3 env.mp3Encoder mergedBuffer
            let coverPrompt :=
              orTruthy (podcastInfo.map (·.coverPrompt))
                ("Based on story: " ++ job.storyText.take 300)
            let coverBase64 : Option String :=
              if env.geminiApiKey then
                match env.coverGen coverPrompt with
                | .ok c => some c
                | .error _ => none
              else none
            let webmResult : Except String (Option WebmVideo) :=
              match coverBase64 with
              | some c =>
                (createWebmVideo env.loadImage mergedBuffer c mergedBuffer.duration).map some
              | none => .ok none
            match webmResult with
            | .error e => (st2, .error e)
            | .ok webmVideo =>
              let mp3Key := generateAudioKey job.id "mp3" now
              let webmKey := webmVideo.map (fun _ => generateAudioKey job.id "webm" now)
              let coverKey := coverBase64.map (fun _ => job.id ++ "_cover")
              let st3 := saveAudioBlob mp3Key mp3Blob st2
              let st4 :=
                match webmVideo, webmKey with
                | some v, some k =>
                    saveAudioBlob k { mimeType := "video/webm", content := .webm v } st3
                | _, _ => st3
              let st5 :=
                match coverBase64, coverKey with
                | some c, some k => saveItemAudioBase64 k c st4
                | _, _ => st4
              let updatedJob := { job with
                status := .files_ready
                podcastTitle := some podcastTitle
                episodeTitle := some episodeTitle
                podcastDescription := some podcastDescription
                scriptData := some { sd with items := updatedItems }
                files := some
                  { mp3Key := some mp3Key, webmKey := webmKey, coverKey := coverKey } }
              (updateBatchJobFull job.id updatedJob now st5, .ok updatedJob)

/-- `handleUploadToYouTube` (`App.tsx` lines 456-499): require a WebM file
reference and a YouTube token, mark the job `uploading`, load the blob,
upload it, and persist the job as `uploaded` with the returned video id and
url.  (The optional add-to-playlist call is wrapped in its own `catch` and
touches no modelled state.) -/
def handleUploadToYouTube (env : Env) (job : BatchJob) (now : ℕ) (st : St) :
    St × Except String BatchJob :=
  if truthy (job.files.bind (·.webmKey)) = true then
    match env.token with
    | none => (st, .error "Not logged in to YouTube")
    | some _tok =>
      let webmKey := (job.files.bind (·.webmKey)).getD ""
      let st1 := updateBatchJob job.id { status := some .uploading } now st
      match loadAudioBlob webmKey st1 with
      | none => (st1, .error "WebM file not found")
      | some webmBlob =>
        match env.upload webmBlob with
        | .error e => (st1, .error e)
        | .ok (videoId, url) =>
          let updatedJob := { job with
            status := .uploaded
            youtubeVideoId := some videoId
            youtubeUrl := some url
            uploadedAt := some now }
          (updateBatchJobFull job.id updatedJob now st1, .ok updatedJob)
  else (st, .error "No WebM file")

/-- `handleGenerateAllScripts` (`BatchPage.tsx` lines 312-341): iterate the
jobs currently `pending`, generate each script, and on a failure mark that
job `error` and continue with the next one. -/
def handleGenerateAllScripts (env : Env) (now : ℕ) (st : St) : St :=
  (st.jobs.filter (fun j => j.status = .pending)).foldl
    (fun acc job =>
      match handleGenerateScript env job now acc with
      | (st1, .ok _) => st1
      | (st1, .error e) =>
        updateBatchJob job.id { status := some .error, error := some e } now st1)
    st

/-- `handleGenerateAllFiles` (`BatchPage.tsx` lines 344-373): iterate the
jobs currently `script_ready`; a failed job is marked `error` and the loop
continues. -/
def handleGenerateAllFiles (env : Env) (now : ℕ) (st : St) : St :=
  (st.jobs.filter (fun j => j.status = .script_ready)).foldl
    (fun acc job =>
      match handleGenerateFiles env job now acc with
      | (st1, .ok _) => st1
      | (st1, .error e) =>
        updateBatchJob job.id { status := some .error, error := some e } now st1)
    st

/-- `handleUploadAll` (`BatchPage.tsx` lines 376-410): iterate the jobs
currently `files_ready`; a failed job is marked `error` and the loop
continues. -/
def handleUploadAll (env : Env) (now : ℕ) (st : St) : St :=
  (st.jobs.filter (fun j => j.status = .files_ready)).foldl
    (fun acc job =>
      match handleUploadToYouTube env job now acc with
      | (st1, .ok _) => st1
      | (st1, .error e) =>
        updateBatchJob job.id { status := some .error, error := some e } now st1)
    st

/-- `handleAutoProcessAll` (`BatchPage.tsx` lines 413-466): for each
`pending` job run script generation, file generation and upload in
sequence; the first failure marks that job `error` and the loop continues
with the next job. -/
def handleAutoProcessAll (env : Env) (now : ℕ) (st : St) : St :=
  (st.jobs.filter (fun j => j.status = .pending)).foldl
    (fun acc job =>
      match handleGenerateScript env job now acc with
      | (st1, .error e) =>
        updateBatchJob job.id { status := some .error, error := some e } now st1
      | (st1, .ok j1) =>
        match handleGenerateFiles env j1 now st1 with
        | (st2, .error e) =>
          updateBatchJob job.id { status := some .error, error := some e } now st2
        | (st2, .ok j2) =>
          match handleUploadToYouTube env j2 now st2 with
          | (st3, .error e) =>
            updateBatchJob job.id { status := some .error, error := some e } now st3
          | (st3, .ok _) => st3)
    st

/-- The batch operations the UI can trigger over the job list. -/
inductive BatchOp where
  | generateAllScripts
  | generateAllFiles
  | uploadAll
  | autoProcessAll
deriving Repr, DecidableEq

def runBatchOp : BatchOp → Env → ℕ → St → St
  | .generateAllScripts, env, now, st => handleGenerateAllScripts env now st
  | .generateAllFiles, env, now, st => handleGenerateAllFiles env now st
  | .uploadAll, env, now, st => handleUploadAll env now st
  | .autoProcessAll, env, now, st => handleAutoProcessAll env now st

/-- A sequence of batch operations, each with its environment and
timestamp, applied in order. -/
def runBatchOps : List (BatchOp × Env × ℕ) → St → St
  | [], st => st
  | (op, env, now) :: rest, st => runBatchOps rest (runBatchOp op env now st)

/-! ## Claim C5: the 16-bit quantizer of the lossless encoder -/

/-- Modelled from the claim text (spec section 4.2): round half away from
zero. -/
def roundHalfAwayFromZero (q : ℚ) : ℤ :=
  if 0 ≤ q then ⌊q + 1 / 2⌋ else -⌊-q + 1 / 2⌋

/-- Modelled from the claim text: clamp to `[-1, 1]`, then apply
round-half-away-from-zero scaling into the signed 16-bit range, with `+1.0`
mapping to `+32767` and `-1.0` mapping to `-32768` (so negative values scale
by 32768 and nonnegative ones by 32767). -/
def specEncodeSample (x : ℚ) : ℤ :=
  let s := clamp x
  roundHalfAwayFromZero (if s < 0 then s * 32768 else s * 32767)

theorem clamp_le_one (x : ℚ) : clamp x ≤ 1 := by
  unfold clamp
  exact max_le (by norm_num) (min_le_left _ _)

theorem neg_one_le_clamp (x : ℚ) : -1 ≤ clamp x := le_max_left _ _

theorem clamp_of_bounds (x : ℚ) (h1 : -1 ≤ x) (h2 : x ≤ 1) : clamp x = x := by
  unfold clamp
  rw [min_eq_right h2, max_eq_right h1]

theorem clamp_clamp (x : ℚ) : clamp (clamp x) = clamp x :=
  clamp_of_bounds _ (neg_one_le_clamp x) (clamp_le_one x)

theorem encodeSample_clamp (x : ℚ) : encodeSample (clamp x) = encodeSample x := by
  unfold encodeSample
  rw [clamp_clamp]

theorem encodeSample_eq (x : ℚ) :
    encodeSample x =
      truncToZero (if 0.5 + clamp x < 0 then clamp x * 32768 else clamp x * 32767) :=
  rfl

theorem truncToZero_eq_floor (q : ℚ) (h : 0 ≤ q) : truncToZero q = ⌊q⌋ :=
  if_pos h

theorem truncToZero_eq_ceil (q : ℚ) (h : ¬0 ≤ q) : truncToZero q = ⌈q⌉ :=
  if_neg h

theorem encodeSample_lower (x : ℚ) : -32768 ≤ encodeSample x := by
  rw [encodeSample_eq]
  have hlo : -1 ≤ clamp x := neg_one_le_clamp x
  have hhi : clamp x ≤ 1 := clamp_le_one x
  set s := clamp x with hs
  by_cases hneg : 0.5 + s < 0
  · rw [if_pos hneg]
    have hy : (-32768 : ℚ) ≤ s * 32768 := by nlinarith
    by_cases h0 : 0 ≤ s * 32768
    · rw [truncToZero_eq_floor _ h0]
      calc (-32768 : ℤ) ≤ 0 := by norm_num
        _ ≤ ⌊s * 32768⌋ := Int.le_floor.mpr (by exact_mod_cast h0)
    · rw [truncToZero_eq_ceil _ h0]
      calc (-32768 : ℤ) = ⌈((-32768 : ℤ) : ℚ)⌉ := (Int.ceil_intCast _).symm
        _ ≤ ⌈s * 32768⌉ := Int.ceil_le_ceil (by exact_mod_cast hy)
  · rw [if_neg hneg]
    have hy : (-32767 : ℚ) ≤ s * 32767 := by nlinarith
    by_cases h0 : 0 ≤ s * 32767
    · rw [truncToZero_eq_floor _ h0]
      calc (-32768 : ℤ) ≤ 0 := by norm_num
        _ ≤ ⌊s * 32767⌋ := Int.le_floor.mpr (by exact_mod_cast h0)
    · rw [truncToZero_eq_ceil _ h0]
      calc (-32768 : ℤ) ≤ ⌈((-32767 : ℤ) : ℚ)⌉ := by
              rw [Int.ceil_intCast]; norm_num
        _ ≤ ⌈s * 32767⌉ := Int.ceil_le_ceil (by exact_mod_cast hy)

theorem encodeSample_upper (x : ℚ) : encodeSample x ≤ 32767 := by
  rw [encodeSample_eq]
  have hlo : -1 ≤ clamp x := neg_one_le_clamp x
  have hhi : clamp x ≤ 1 := clamp_le_one x
  set s := clamp x with hs
  by_cases hneg : 0.5 + s < 0
  · rw [if_pos hneg]
    have hy : s * 32768 ≤ 0 := by nlinarith
    by_cases h0 : 0 ≤ s * 32768
    · rw [truncToZero_eq_floor _ h0]
      calc ⌊s * 32768⌋ ≤ ⌊(0 : ℚ)⌋ := Int.floor_le_floor hy
        _ ≤ 32767 := by norm_num
    · rw [truncToZero_eq_ceil _ h0]
      calc ⌈s * 32768⌉ ≤ ⌈(0 : ℚ)⌉ := Int.ceil_le_ceil hy
        _ ≤ 32767 := by norm_num
  · rw [if_neg hneg]
    have hy : s * 32767 ≤ 32767 := by nlinarith
    by_cases h0 : 0 ≤ s * 32767
    · rw [truncToZero_eq_floor _ h0]
      calc ⌊s * 32767⌋ ≤ ⌊(32767 : ℚ)⌋ := Int.floor_le_floor hy
        _ = 32767 := by norm_num
    · rw [truncToZero_eq_ceil _ h0]
      calc ⌈s * 32767⌉ ≤ ⌈(32767 : ℚ)⌉ := Int.ceil_le_ceil hy
        _ = 32767 := by norm_num

/-- Index into the flattened interleaving: outer index `i`, inner index `j`,
when every inner list has length `k`. -/
theorem flatten_getD_uniform {α : Type} (d : α) (L : List (List α)) (k : ℕ)
    (hL : ∀ l ∈ L, l.length = k) :
    ∀ (i j : ℕ), i < L.length → j < k →
      L.flatten.getD (i * k + j) d = (L.getD i []).getD j d := by
  induction L with
  | nil => intro i j hi _; exact absurd hi (by simp)
  | cons l rest ih =>
    intro i j hi hj
    have hlen : l.length = k := hL l (by simp)
    cases i with
    | zero =>
      have hjl : j < l.length := hlen ▸ hj
      simp only [List.flatten_cons, Nat.zero_mul, Nat.zero_add, List.getD_cons_zero]
      rw [List.getD_append _ _ _ _ hjl]
    | succ i' =>
      have hi' : i' < rest.length := by
        simpa using Nat.lt_of_succ_lt_succ hi
      have hidx : (i' + 1) * k + j = l.length + (i' * k + j) := by
        rw [hlen]; ring
      simp only [List.flatten_cons, hidx]
      rw [List.getD_append_right _ _ _ _ (Nat.le_add_right _ _)]
      simp only [Nat.add_sub_cancel_left]
      have := ih (fun x hx => hL x (by simp [hx])) i' j hi' hj
      simpa using this

theorem getD_map_of_lt {α β : Type} (g : α → β) (l : List α) (n : ℕ)
    (hn : n < l.length) (d : β) (d' : α) :
    (l.map g).getD n d = g (l.getD n d') := by
  rw [List.getD_eq_getElem?_getD, List.getD_eq_getElem?_getD, List.getElem?_map,
    List.getElem?_eq_getElem hn]
  simp

theorem interleavedData_getD (b : AudioBuffer) (pos ch : ℕ)
    (hpos : pos < b.frameCount) (hch : ch < b.numberOfChannels) :
    (interleavedData b).getD (pos * b.numberOfChannels + ch) 0 =
      encodeSample ((b.channelData.getD ch []).getD pos 0) := by
  unfold interleavedData
  have huni : ∀ l ∈ (List.range b.frameCount).map
      (fun pos => b.channelData.map (fun c => encodeSample (c.getD pos 0))),
      l.length = b.numberOfChannels := by
    intro l hl
    obtain ⟨p, _, rfl⟩ := List.mem_map.mp hl
    simp [AudioBuffer.numberOfChannels]
  rw [flatten_getD_uniform 0 _ _ huni pos ch (by simpa using hpos) hch]
  rw [getD_map_of_lt _ _ pos (by simpa using hpos) [] 0]
  rw [List.getD_eq_getElem?_getD (List.range b.frameCount), List.getElem?_range hpos]
  simp only [Option.getD_some]
  exact getD_map_of_lt _ _ ch hch 0 []

theorem encodeSample_one : encodeSample 1 = 32767 := by
  norm_num [encodeSample, clamp, truncToZero, Int.floor_eq_iff]

theorem encodeSample_negOne : encodeSample (-1) = -32768 := by
  norm_num [encodeSample, clamp, truncToZero, Int.ceil_eq_iff]

theorem encodeSample_negTwoFifths : encodeSample (-2/5) = -13106 := by
  norm_num [encodeSample, clamp, truncToZero, Int.ceil_eq_iff]

theorem specEncodeSample_negTwoFifths : specEncodeSample (-2/5) = -13107 := by
  norm_num [specEncodeSample, roundHalfAwayFromZero, clamp, Int.floor_eq_iff]

/-- Claim C5, counterexample: at the concrete sample `-2/5` the encoder of
`bufferToWav` yields `-13106` (scale 32767 above the `-0.5` threshold,
truncation toward zero), whereas the claimed clamp-then-round-half-away-from-
zero quantization (negative values scaled by 32768) yields `-13107`. -/
theorem C5_counterexample :
    (bufferToWav { sampleRate := 44100, channelData := [[-2/5]] }).content =
      BlobContent.wav
        { numChannels := 1, sampleRate := 44100, bitsPerSample := 16, data := [-13106] } ∧
    specEncodeSample (-2/5) = -13107 ∧
    encodeSample (-2/5) ≠ specEncodeSample (-2/5) := by
  refine ⟨?_, specEncodeSample_negTwoFifths, ?_⟩
  · simp only [bufferToWav, interleavedData, AudioBuffer.frameCount,
      AudioBuffer.numberOfChannels, List.headD, List.length, List.range_succ,
      List.range_zero, List.nil_append, List.map, List.flatten, BlobContent.wav.injEq]
    simp [encodeSample_negTwoFifths, WavFile.mk.injEq, List.getD]
  · rw [encodeSample_negTwoFifths, specEncodeSample_negTwoFifths]
    decide

/-- Claim C5 (amended): the 16-bit sample written by `bufferToWav` at frame
`pos`, channel `ch` is obtained from the float sample by clamping to
`[-1, 1]` and then scaling by 32768 when the clamped value lies below `-0.5`
and by 32767 otherwise, truncating toward zero (not rounding half away from
zero); `+1.0` maps to `+32767` and `-1.0` to `-32768`, every encoded sample
lies in the signed 16-bit range, and the encoder is a total function that
never fails for a well-formed buffer. -/
theorem C5_wav_quantizer (b : AudioBuffer) (pos ch : ℕ)
    (hpos : pos < b.frameCount) (hch : ch < b.numberOfChannels) :
    (bufferToWav b).mimeType = "audio/wav" ∧
    ∃ w, (bufferToWav b).content = BlobContent.wav w ∧
      w.bitsPerSample = 16 ∧
      w.data.getD (pos * b.numberOfChannels + ch) 0 =
        truncToZero
          (if 0.5 + clamp ((b.channelData.getD ch []).getD pos 0) < 0 then
            clamp ((b.channelData.getD ch []).getD pos 0) * 32768
          else clamp ((b.channelData.getD ch []).getD pos 0) * 32767) ∧
      encodeSample (clamp ((b.channelData.getD ch []).getD pos 0)) =
        encodeSample ((b.channelData.getD ch []).getD pos 0) ∧
      -32768 ≤ encodeSample ((b.channelData.getD ch []).getD pos 0) ∧
      encodeSample ((b.channelData.getD ch []).getD pos 0) ≤ 32767 ∧
      encodeSample 1 = 32767 ∧ encodeSample (-1) = -32768 := by
  refine ⟨rfl, ⟨_, rfl, rfl, ?_, encodeSample_clamp _, encodeSample_lower _,
    encodeSample_upper _, encodeSample_one, encodeSample_negOne⟩⟩
  rw [← encodeSample_eq]
  exact interleavedData_getD b pos ch hpos hch

/-- Witness for C5 (amended) at a concrete one-channel buffer holding the
single sample `-2/5`. -/
theorem C5_wav_quantizer_witness :
    (bufferToWav { sampleRate := 44100, channelData := [[-2/5]] }).mimeType = "audio/wav" ∧
    ∃ w, (bufferToWav { sampleRate := 44100, channelData := [[-2/5]] }).content =
        BlobContent.wav w ∧
      w.bitsPerSample = 16 ∧
      w.data.getD 0 0 =
        truncToZero (if 0.5 + clamp (-2/5) < 0 then clamp (-2/5) * 32768
          else clamp (-2/5) * 32767) ∧
      encodeSample (clamp (-2/5)) = encodeSample (-2/5) ∧
      -32768 ≤ encodeSample (-2/5) ∧
      encodeSample (-2/5) ≤ 32767 ∧
      encodeSample 1 = 32767 ∧ encodeSample (-1) = -32768 :=
  C5_wav_quantizer { sampleRate := 44100, channelData := [[-2/5]] } 0 0
    (by decide) (by decide)

/-! ## Claim C6: compressed-encoder fallback -/

/-- Claim C6: `bufferToMp3` is a total function—no exception reaches the
pipeline caller—and whenever the compressed encoder throws (or the encoder
module is unavailable, both modelled by the collaborator returning an
error), the result is exactly the lossless `bufferToWav` artifact, whose
declared MIME type marks the fallback format `audio/wav`; otherwise the
artifact is marked `audio/mp3`.  Either way the pipeline receives a valid
audio artifact from this step. -/
theorem C6_mp3_fallback (enc : List ℤ → Except String (List ℕ)) (b : AudioBuffer)
    (e : String) (h : enc (mp3InputSamples b) = .error e) :
    bufferToMp3 enc b = bufferToWav b ∧
    (bufferToMp3 enc b).mimeType = "audio/wav" ∧
    (∀ enc2 : List ℤ → Except String (List ℕ),
      (bufferToMp3 enc2 b).mimeType = "audio/mp3" ∨ bufferToMp3 enc2 b = bufferToWav b) := by
  have hfall : bufferToMp3 enc b = bufferToWav b := by
    unfold bufferToMp3
    rw [h]
  refine ⟨hfall, by rw [hfall]; rfl, ?_⟩
  intro enc2
  unfold bufferToMp3
  cases enc2 (mp3InputSamples b) with
  | ok bytes => exact Or.inl rfl
  | error e2 => exact Or.inr rfl

/-- Witness for C6: a concrete buffer and an encoder that always throws. -/
theorem C6_mp3_fallback_witness :
    bufferToMp3 (fun _ => .error "MP3 encoding failed")
        { sampleRate := 44100, channelData := [[0]] } =
      bufferToWav { sampleRate := 44100, channelData := [[0]] } ∧
    (bufferToMp3 (fun _ => .error "MP3 encoding failed")
        { sampleRate := 44100, channelData := [[0]] }).mimeType = "audio/wav" ∧
    (∀ enc2 : List ℤ → Except String (List ℕ),
      (bufferToMp3 enc2 { sampleRate := 44100, channelData := [[0]] }).mimeType =
          "audio/mp3" ∨
        bufferToMp3 enc2 { sampleRate := 44100, channelData := [[0]] } =
          bufferToWav { sampleRate := 44100, channelData := [[0]] }) :=
  C6_mp3_fallback (fun _ => .error "MP3 encoding failed")
    { sampleRate := 44100, channelData := [[0]] } "MP3 encoding failed" rfl

/-! ## Claims C7 and C8: empty input and missing visuals in the renderers -/

theorem totalLength_nil : totalLength [] = 0 := by
  simp [totalLength, totalDuration]

theorem mergeAudioBuffers_nil :
    mergeAudioBuffers [] = .error .notSupportedError := by
  unfold mergeAudioBuffers
  rw [totalLength_nil]
  rfl

/-- Claim C7, counterexample: rendering the empty segment list does not fail
with any typed error—it returns a video artifact (an empty frame sequence
with the 500 ms trailing buffer), contradicting the claimed
`NoSegmentsError` rejection with no artifact produced. -/
theorem C7_counterexample :
    createDynamicWebmVideo (fun _ => .error "Image load error") [] none {} =
      .ok { width := 1920, height := 1080, bitrate := 8000000, frames := [],
            trailingMs := 500, audio := [] } :=
  rfl

/-- Claim C7 (amended): merging the empty clip list fails—but with the
platform `NotSupportedError` raised by allocating a zero-length offline
context, not a typed `EmptyInputError` (no such type exists in the code)—and
produces no buffer; rendering the empty segment list does not fail at all:
for every image loader and options the renderer returns a video artifact
with no segment frames and no audio. -/
theorem C7_empty_inputs :
    mergeAudioBuffers [] = .error .notSupportedError ∧
    ∀ (loadImage : String → Except String LoadedImage) (options : WebmOptions),
      ∃ v, createDynamicWebmVideo loadImage [] none options = .ok v ∧
        v.frames = [] ∧ v.audio = [] := by
  refine ⟨mergeAudioBuffers_nil, ?_⟩
  intro loadImage options
  exact ⟨_, rfl, rfl, rfl⟩

/-- Claim C8, counterexample: a segment with no image, rendered with no
fallback cover, does not fail with `MissingVisualError`—the render succeeds
and captures the solid black frame for that segment. -/
theorem C8_counterexample :
    createDynamicWebmVideo (fun _ => .error "unused")
        [{ audioBuffer := { sampleRate := 44100, channelData := [[0]] },
           imageBase64 := "", duration := 1 }] none {} =
      .ok { width := 1920, height := 1080, bitrate := 8000000,
            frames := [({ image := none }, 1)], trailingMs := 500,
            audio := [{ sampleRate := 44100, channelData := [[0]] }] } :=
  rfl

theorem loadImages_ok_of_forall (f : String → Except String LoadedImage) :
    ∀ l : List String, (∀ b ∈ l, ∃ img, f b = .ok img) →
      ∃ res, loadImages f l = .ok res ∧ res.map Prod.fst = l := by
  intro l
  induction l with
  | nil => exact fun _ => ⟨[], rfl, rfl⟩
  | cons b rest ih =>
    intro h
    obtain ⟨img, himg⟩ := h b (by simp)
    obtain ⟨res, hres, hfst⟩ := ih (fun x hx => h x (by simp [hx]))
    refine ⟨(b, img) :: res, ?_, by simp [hfst]⟩
    unfold loadImages
    rw [himg, hres]

theorem mem_uniqueImages_no_cover (segments : List WebmSegment) (b : String)
    (hb : b ∈ uniqueImages segments none) : b ≠ "" := by
  unfold uniqueImages at hb
  have := List.mem_dedup.mp hb
  simp only [List.nil_append, List.mem_filter] at this
  exact fun he => by simpa [he] using this.2

theorem drawImageFrameNoImage (cache : String → Option LoadedImage)
    (w h : ℕ) (hc : cache "" = none) :
    drawImageFrame cache none w h "" = { image := none } := by
  unfold drawImageFrame
  rw [hc]

/-- Claim C8 (amended): for any segment list whose present images all load
successfully and with no fallback cover supplied, the slideshow render
succeeds—there is no `MissingVisualError` anywhere in the code—and every
segment that has no image is captured as the solid black frame (no image
drawn over the cleared canvas). -/
theorem C8_missing_visuals (loadImage : String → Except String LoadedImage)
    (segments : List WebmSegment) (options : WebmOptions)
    (hload : ∀ b ∈ uniqueImages segments none, ∃ img, loadImage b = .ok img) :
    ∃ v, createDynamicWebmVideo loadImage segments none options = .ok v ∧
      v.frames.length = segments.length ∧
      ∀ (i : ℕ) (hi : i < segments.length),
        (segments.get ⟨i, hi⟩).imageBase64 = "" →
        ∃ hv : i < v.frames.length,
          (v.frames.get ⟨i, hv⟩).1 = { image := none } := by
  obtain ⟨res, hres, hfst⟩ := loadImages_ok_of_forall loadImage _ hload
  unfold createDynamicWebmVideo
  rw [hres]
  refine ⟨_, rfl, by simp, ?_⟩
  intro i hi hempty
  have hcache : (res.find? (fun p => p.1 = "")).map (·.2) = none := by
    rw [List.find?_eq_none.mpr]
    · rfl
    · intro p hp
      have hmem : p.1 ∈ uniqueImages segments none := by
        rw [← hfst]
        exact List.mem_map.mpr ⟨p, hp, rfl⟩
      simpa using mem_uniqueImages_no_cover segments p.1 hmem
  refine ⟨by simpa using hi, ?_⟩
  have hget : (List.map (fun s =>
      (drawImageFrame (fun k => (res.find? (fun p => p.1 = k)).map (·.2)) none
        (resolveDimensions options.resolution).1
        (resolveDimensions options.resolution).2 s.imageBase64, s.duration))
      segments).get ⟨i, by simpa using hi⟩ =
      (drawImageFrame (fun k => (res.find? (fun p => p.1 = k)).map (·.2)) none
        (resolveDimensions options.resolution).1
        (resolveDimensions options.resolution).2
        (segments.get ⟨i, hi⟩).imageBase64, (segments.get ⟨i, hi⟩).duration) := by
    simp
  rw [hget, hempty]
  exact drawImageFrameNoImage (fun k => (res.find? (fun p => p.1 = k)).map (·.2))
    (resolveDimensions options.resolution).1 (resolveDimensions options.resolution).2 hcache

/-- The concrete segment list used by the C8 witness: one segment whose
image is missing. -/
def c8Segs : List WebmSegment :=
  [{ audioBuffer := { sampleRate := 44100, channelData := [[0]] },
     imageBase64 := "", duration := 1 }]

/-- Witness for C8 (amended): one segment with no image, no fallback. -/
theorem C8_missing_visuals_witness :
    ∃ v, createDynamicWebmVideo (fun _ => .error "unused") c8Segs none {} = .ok v ∧
      v.frames.length = c8Segs.length ∧
      ∀ (i : ℕ) (hi : i < c8Segs.length),
        (c8Segs.get ⟨i, hi⟩).imageBase64 = "" →
        ∃ hv : i < v.frames.length,
          (v.frames.get ⟨i, hv⟩).1 = { image := none } :=
  C8_missing_visuals (fun _ => .error "unused") c8Segs {}
    (by intro b hb; simp [uniqueImages, c8Segs] at hb)

/-! ## Claim C2: merge output format, length and duration additivity -/

theorem foldl_add_duration (l : List AudioBuffer) (a : ℚ) :
    l.foldl (fun acc b => acc + b.duration) a = a + (l.map AudioBuffer.duration).sum := by
  induction l generalizing a with
  | nil => simp
  | cons b bs ih =>
    simp only [List.foldl_cons, List.map_cons, List.sum_cons]
    rw [ih, add_assoc]

theorem totalDuration_eq_sum (l : List AudioBuffer) :
    totalDuration l = (l.map AudioBuffer.duration).sum := by
  simpa using foldl_add_duration l 0

theorem duration_nonneg (b : AudioBuffer) : 0 ≤ b.duration := by
  unfold AudioBuffer.duration
  positivity

theorem duration_pos (b : AudioBuffer) (h : b.wellFormed) : 0 < b.duration := by
  obtain ⟨hf, hr⟩ := h
  unfold AudioBuffer.duration
  apply div_pos <;> exact_mod_cast by assumption

theorem totalDuration_pos (buffers : List AudioBuffer)
    (hne : buffers ≠ []) (hwf : ∀ b ∈ buffers, b.wellFormed) :
    0 < totalDuration buffers := by
  obtain ⟨b, hb⟩ := List.exists_mem_of_ne_nil buffers hne
  rw [totalDuration_eq_sum]
  calc (0 : ℚ) < b.duration := duration_pos b (hwf b hb)
    _ ≤ (buffers.map AudioBuffer.duration).sum := by
        apply List.single_le_sum
        · intro x hx
          obtain ⟨c, _, rfl⟩ := List.mem_map.mp hx
          exact duration_nonneg c
        · exact List.mem_map.mpr ⟨b, hb, rfl⟩

theorem totalLength_pos (buffers : List AudioBuffer)
    (hne : buffers ≠ []) (hwf : ∀ b ∈ buffers, b.wellFormed) :
    0 < totalLength buffers := by
  have hD : 0 < totalDuration buffers * (targetSampleRate : ℚ) := by
    apply mul_pos (totalDuration_pos buffers hne hwf)
    norm_num [targetSampleRate]
  have : (0 : ℤ) < ⌈totalDuration buffers * (targetSampleRate : ℚ)⌉ :=
    Int.ceil_pos.mpr hD
  unfold totalLength
  omega

theorem mergeAudioBuffers_ok (buffers : List AudioBuffer)
    (h : 0 < totalLength buffers) :
    mergeAudioBuffers buffers =
      .ok { sampleRate := targetSampleRate
            channelData := [(List.range (totalLength buffers)).map (mixAt buffers)] } := by
  unfold mergeAudioBuffers
  rw [if_neg (by omega)]

/-- Claim C2: for every non-empty list of well-formed clips, merge returns a
mono buffer at 44100 Hz whose sample length is the ceiling of the total
duration times 44100, so that the merged duration equals the sum of the clip
durations to within one sample period. -/
theorem C2_merge_duration (buffers : List AudioBuffer)
    (hne : buffers ≠ []) (hwf : ∀ b ∈ buffers, b.wellFormed) :
    ∃ m, mergeAudioBuffers buffers = .ok m ∧
      m.numberOfChannels = 1 ∧
      m.sampleRate = 44100 ∧
      m.frameCount = (⌈totalDuration buffers * 44100⌉).toNat ∧
      totalDuration buffers ≤ m.duration ∧
      m.duration < totalDuration buffers + 1 / 44100 := by
  have hpos := totalLength_pos buffers hne hwf
  refine ⟨_, mergeAudioBuffers_ok buffers hpos, rfl, rfl, by
    simp [AudioBuffer.frameCount, totalLength, targetSampleRate], ?_, ?_⟩
  all_goals
    have hfc : (AudioBuffer.frameCount
        { sampleRate := targetSampleRate
          channelData := [(List.range (totalLength buffers)).map (mixAt buffers)] } : ℚ) =
        ((⌈totalDuration buffers * 44100⌉).toNat : ℚ) := by
      simp [AudioBuffer.frameCount, totalLength, targetSampleRate]
    have hceilnn : (0 : ℤ) ≤ ⌈totalDuration buffers * 44100⌉ := by
      have h44 : totalLength buffers =
          (⌈totalDuration buffers * (44100 : ℚ)⌉).toNat := by
        simp [totalLength, targetSampleRate]
      omega
    have hcast : ((⌈totalDuration buffers * 44100⌉).toNat : ℚ) =
        ((⌈totalDuration buffers * 44100⌉ : ℤ) : ℚ) := by
      exact_mod_cast congrArg (fun z : ℤ => (z : ℚ)) (Int.toNat_of_nonneg hceilnn)
    have hdur : AudioBuffer.duration
        { sampleRate := targetSampleRate
          channelData := [(List.range (totalLength buffers)).map (mixAt buffers)] } =
        ((⌈totalDuration buffers * 44100⌉ : ℤ) : ℚ) / 44100 := by
      unfold AudioBuffer.duration
      rw [hfc, hcast]
      norm_num [targetSampleRate]
  · rw [hdur, le_div_iff₀ (by norm_num : (0 : ℚ) < 44100)]
    exact Int.le_ceil _
  · rw [hdur, div_lt_iff₀ (by norm_num : (0 : ℚ) < 44100)]
    calc ((⌈totalDuration buffers * 44100⌉ : ℤ) : ℚ)
        < totalDuration buffers * 44100 + 1 := Int.ceil_lt_add_one _
      _ = (totalDuration buffers + 1 / 44100) * 44100 := by ring

/-- Witness for C2: two concrete clips, one at 44100 Hz and one at 22050
Hz. -/
theorem C2_merge_duration_witness :
    ∃ m, mergeAudioBuffers
        [{ sampleRate := 44100, channelData := [[1]] },
         { sampleRate := 22050, channelData := [[0, 1]] }] = .ok m ∧
      m.numberOfChannels = 1 ∧
      m.sampleRate = 44100 ∧
      m.frameCount = (⌈totalDuration
        [{ sampleRate := 44100, channelData := [[1]] },
         { sampleRate := 22050, channelData := [[0, 1]] }] * 44100⌉).toNat ∧
      totalDuration
        [{ sampleRate := 44100, channelData := [[1]] },
         { sampleRate := 22050, channelData := [[0, 1]] }] ≤ m.duration ∧
      m.duration < totalDuration
        [{ sampleRate := 44100, channelData := [[1]] },
         { sampleRate := 22050, channelData := [[0, 1]] }] + 1 / 44100 :=
  C2_merge_duration _ (by decide) (by decide)

/-! ## Claim C1: merge schedules clips at running duration totals and
concatenates without reordering, duplication or dropped samples -/

/-- Total frame count of a clip list (the proof-side counterpart of the
duration running total, exact when every clip is at the target rate). -/
def sumFrames (l : List AudioBuffer) : ℕ :=
  (l.map AudioBuffer.frameCount).sum

theorem duration_mul_target (b : AudioBuffer) (h : b.sampleRate = targetSampleRate) :
    b.duration * ((targetSampleRate : ℕ) : ℚ) = (b.frameCount : ℚ) := by
  unfold AudioBuffer.duration
  rw [h]
  rw [div_mul_cancel₀]
  norm_num [targetSampleRate]

theorem contribAt_char (b : AudioBuffer) (hr : b.sampleRate = targetSampleRate)
    (hc : b.numberOfChannels = 1) (t : ℚ) (m : ℕ)
    (ht : t * ((targetSampleRate : ℕ) : ℚ) = (m : ℚ)) (n : ℕ) :
    contribAt b t n =
      if m ≤ n ∧ n < m + b.frameCount then
        (b.channelData.headD []).getD (n - m) 0
      else 0 := by
  unfold contribAt
  rw [if_pos ⟨hr, hc⟩]
  simp only [ht, Rat.den_natCast, Rat.num_natCast, Int.toNat_natCast, true_and]
  split_ifs with h1 h2 <;> first | rfl | (exfalso; omega)

theorem mixFrom_zero :
    ∀ (bs : List AudioBuffer),
      (∀ b ∈ bs, b.sampleRate = targetSampleRate ∧ b.numberOfChannels = 1) →
      ∀ (t : ℚ) (base : ℕ), t * ((targetSampleRate : ℕ) : ℚ) = (base : ℚ) →
      ∀ n : ℕ, n < base →
      ((bs.zip (startOffsetsFrom t bs)).map (fun p => contribAt p.1 p.2 n)).sum = 0 := by
  intro bs
  induction bs with
  | nil => intro _ t base _ n _; simp [startOffsetsFrom]
  | cons b rest ih =>
    intro hall t base ht n hn
    obtain ⟨hr, hc⟩ := hall b (by simp)
    simp only [startOffsetsFrom, List.zip_cons_cons, List.map_cons, List.sum_cons]
    rw [contribAt_char b hr hc t base ht n, if_neg (by omega)]
    have ht' : (t + b.duration) * ((targetSampleRate : ℕ) : ℚ) =
        ((base + b.frameCount : ℕ) : ℚ) := by
      rw [add_mul, ht, duration_mul_target b hr]
      push_cast
      ring
    rw [ih (fun x hx => hall x (by simp [hx])) (t + b.duration) (base + b.frameCount)
      ht' n (by omega)]
    ring

theorem mixFrom_readback :
    ∀ (bs : List AudioBuffer),
      (∀ b ∈ bs, b.sampleRate = targetSampleRate ∧ b.numberOfChannels = 1) →
      ∀ (t : ℚ) (base : ℕ), t * ((targetSampleRate : ℕ) : ℚ) = (base : ℚ) →
      ∀ (i : ℕ) (hi : i < bs.length) (j : ℕ), j < (bs.get ⟨i, hi⟩).frameCount →
      ((bs.zip (startOffsetsFrom t bs)).map
        (fun p => contribAt p.1 p.2 (base + sumFrames (bs.take i) + j))).sum =
        ((bs.get ⟨i, hi⟩).channelData.headD []).getD j 0 := by
  intro bs
  induction bs with
  | nil => intro _ t base _ i hi; exact absurd hi (by simp)
  | cons b rest ih =>
    intro hall t base ht i hi j hj
    obtain ⟨hr, hc⟩ := hall b (by simp)
    have ht' : (t + b.duration) * ((targetSampleRate : ℕ) : ℚ) =
        ((base + b.frameCount : ℕ) : ℚ) := by
      rw [add_mul, ht, duration_mul_target b hr]
      push_cast
      ring
    simp only [startOffsetsFrom, List.zip_cons_cons, List.map_cons, List.sum_cons]
    cases i with
    | zero =>
      have hjb : j < b.frameCount := by simpa using hj
      rw [contribAt_char b hr hc t base ht _,
        if_pos (by constructor <;> simp [sumFrames] <;> omega)]
      have hidx : base + sumFrames ((b :: rest).take 0) + j - base = j := by
        simp [sumFrames]
      rw [hidx]
      have hzero := mixFrom_zero rest (fun x hx => hall x (by simp [hx]))
        (t + b.duration) (base + b.frameCount) ht'
        (base + sumFrames ((b :: rest).take 0) + j) (by simp [sumFrames]; omega)
      rw [hzero, add_zero]
      rfl
    | succ i' =>
      have hi' : i' < rest.length := by simpa using hi
      have hsf : sumFrames ((b :: rest).take (i' + 1)) =
          b.frameCount + sumFrames (rest.take i') := by
        simp [sumFrames]
      rw [contribAt_char b hr hc t base ht _, if_neg (by rw [hsf]; omega)]
      have hn : base + sumFrames ((b :: rest).take (i' + 1)) + j =
          (base + b.frameCount) + sumFrames (rest.take i') + j := by
        rw [hsf]; omega
      rw [hn]
      rw [ih (fun x hx => hall x (by simp [hx])) (t + b.duration) (base + b.frameCount)
        ht' i' hi' j (by simpa using hj)]
      rw [zero_add]
      rfl

theorem totalDuration_mul_target :
    ∀ (buffers : List AudioBuffer),
      (∀ b ∈ buffers, b.sampleRate = targetSampleRate) →
      totalDuration buffers * ((targetSampleRate : ℕ) : ℚ) = (sumFrames buffers : ℚ) := by
  intro buffers
  induction buffers with
  | nil => intro _; simp [totalDuration, sumFrames]
  | cons b rest ih =>
    intro hall
    have h1 : totalDuration (b :: rest) = b.duration + totalDuration rest := by
      rw [totalDuration_eq_sum, totalDuration_eq_sum]
      simp
    rw [h1, add_mul, duration_mul_target b (hall b (by simp)),
      ih (fun x hx => hall x (by simp [hx]))]
    simp [sumFrames]

theorem totalLength_eq_sumFrames (buffers : List AudioBuffer)
    (hall : ∀ b ∈ buffers, b.sampleRate = targetSampleRate) :
    totalLength buffers = sumFrames buffers := by
  unfold totalLength
  rw [totalDuration_mul_target buffers hall, Int.ceil_natCast, Int.toNat_natCast]

theorem range_map_getD {β : Type} (f : ℕ → β) (L n : ℕ) (hn : n < L) (d : β) :
    ((List.range L).map f).getD n d = f n := by
  rw [getD_map_of_lt f (List.range L) n (by simpa using hn) d 0]
  rw [List.getD_eq_getElem?_getD, List.getElem?_range hn]
  rfl

theorem startOffsetsFrom_getD :
    ∀ (bs : List AudioBuffer) (t : ℚ) (i : ℕ), i < bs.length →
      (startOffsetsFrom t bs).getD i 0 =
        t + ((bs.take i).map AudioBuffer.duration).sum := by
  intro bs
  induction bs with
  | nil => intro t i hi; exact absurd hi (by simp)
  | cons b rest ih =>
    intro t i hi
    cases i with
    | zero => simp [startOffsetsFrom]
    | succ i' =>
      have hi' : i' < rest.length := by simpa using hi
      simp only [startOffsetsFrom, List.getD_cons_succ, List.take_succ_cons,
        List.map_cons, List.sum_cons]
      rw [ih (t + b.duration) i' hi']
      ring

theorem sumFrames_take_add_lt (buffers : List AudioBuffer) (i j : ℕ)
    (hi : i < buffers.length) (hj : j < (buffers.get ⟨i, hi⟩).frameCount) :
    sumFrames (buffers.take i) + j < sumFrames buffers := by
  have hsucc : ((buffers.map AudioBuffer.frameCount).take (i + 1)).sum =
      ((buffers.map AudioBuffer.frameCount).take i).sum +
        (buffers.get ⟨i, hi⟩).frameCount := by
    rw [List.sum_take_succ _ i (by simpa using hi)]
    congr 1
    simp
  have hle : ((buffers.map AudioBuffer.frameCount).take (i + 1)).sum ≤
      (buffers.map AudioBuffer.frameCount).sum := by
    have hsplit : ((buffers.map AudioBuffer.frameCount).take (i + 1)).sum +
        ((buffers.map AudioBuffer.frameCount).drop (i + 1)).sum =
        (buffers.map AudioBuffer.frameCount).sum := by
      rw [← List.sum_append, List.take_append_drop]
    omega
  unfold sumFrames
  rw [← List.map_take] at hsucc hle
  have := hsucc ▸ hle
  rw [List.map_take]
  omega

/-- Claim C1: `mergeAudioBuffers` schedules every clip, in list order, at
the cumulative offset equal to the sum of the durations of all previously
placed clips (a running total over durations, never an index-based
position), and—for mono clips at the target rate, the resampling-free
case—the merged samples read back segment by segment equal each clip's
samples, with no reordering, duplication or dropped samples.  A clip with
duration 0 contributes no frames (the read-back condition is vacuous for
it) and does not shift subsequent offsets, because the offsets are the
running total. -/
theorem C1_merge_readback (buffers : List AudioBuffer)
    (hall : ∀ b ∈ buffers, b.sampleRate = targetSampleRate ∧ b.numberOfChannels = 1)
    (hsome : 0 < sumFrames buffers) :
    (∀ i : ℕ, i < buffers.length →
      (startOffsets buffers).getD i 0 =
        ((buffers.take i).map AudioBuffer.duration).sum) ∧
    ∃ m, mergeAudioBuffers buffers = .ok m ∧
      m.frameCount = sumFrames buffers ∧
      ∀ (i : ℕ) (hi : i < buffers.length) (j : ℕ),
        j < (buffers.get ⟨i, hi⟩).frameCount →
        (m.channelData.headD []).getD (sumFrames (buffers.take i) + j) 0 =
          ((buffers.get ⟨i, hi⟩).channelData.headD []).getD j 0 := by
  have hrates : ∀ b ∈ buffers, b.sampleRate = targetSampleRate :=
    fun b hb => (hall b hb).1
  have hlen : totalLength buffers = sumFrames buffers :=
    totalLength_eq_sumFrames buffers hrates
  have hpos : 0 < totalLength buffers := by omega
  constructor
  · intro i hi
    unfold startOffsets
    rw [startOffsetsFrom_getD buffers 0 i hi, zero_add]
  refine ⟨_, mergeAudioBuffers_ok buffers hpos, ?_, ?_⟩
  · simp [AudioBuffer.frameCount, hlen]
  intro i hi j hj
  have hpos2 : sumFrames (buffers.take i) + j < totalLength buffers := by
    rw [hlen]
    exact sumFrames_take_add_lt buffers i j hi hj
  show ((List.range (totalLength buffers)).map (mixAt buffers)).getD _ 0 = _
  rw [range_map_getD (mixAt buffers) (totalLength buffers) _ hpos2 0]
  unfold mixAt startOffsets
  have ht0 : (0 : ℚ) * ((targetSampleRate : ℕ) : ℚ) = ((0 : ℕ) : ℚ) := by simp
  have := mixFrom_readback buffers hall 0 0 ht0 i hi j hj
  simpa using this

/-- Witness for C1: two concrete mono 44100 Hz clips of one and two
frames. -/
theorem C1_merge_readback_witness :
    (∀ i : ℕ, i < ([{ sampleRate := 44100, channelData := [[1]] },
        { sampleRate := 44100, channelData := [[0, 1]] }] : List AudioBuffer).length →
      (startOffsets [{ sampleRate := 44100, channelData := [[1]] },
        { sampleRate := 44100, channelData := [[0, 1]] }]).getD i 0 =
        ((([{ sampleRate := 44100, channelData := [[1]] },
          { sampleRate := 44100, channelData := [[0, 1]] }] : List AudioBuffer).take i).map
            AudioBuffer.duration).sum) ∧
    ∃ m, mergeAudioBuffers [{ sampleRate := 44100, channelData := [[1]] },
        { sampleRate := 44100, channelData := [[0, 1]] }] = .ok m ∧
      m.frameCount = sumFrames [{ sampleRate := 44100, channelData := [[1]] },
        { sampleRate := 44100, channelData := [[0, 1]] }] ∧
      ∀ (i : ℕ) (hi : i < ([{ sampleRate := 44100, channelData := [[1]] },
          { sampleRate := 44100, channelData := [[0, 1]] }] : List AudioBuffer).length)
        (j : ℕ),
        j < (([{ sampleRate := 44100, channelData := [[1]] },
          { sampleRate := 44100, channelData := [[0, 1]] }] : List AudioBuffer).get
            ⟨i, hi⟩).frameCount →
        (m.channelData.headD []).getD
          (sumFrames (([{ sampleRate := 44100, channelData := [[1]] },
            { sampleRate := 44100, channelData := [[0, 1]] }] : List AudioBuffer).take i) + j)
          0 =
        ((([{ sampleRate := 44100, channelData := [[1]] },
          { sampleRate := 44100, channelData := [[0, 1]] }] : List AudioBuffer).get
            ⟨i, hi⟩).channelData.headD []).getD j 0 :=
  C1_merge_readback
    [{ sampleRate := 44100, channelData := [[1]] },
     { sampleRate := 44100, channelData := [[0, 1]] }]
    (by decide) (by decide)

/-! ## Claim C4: job deletion completeness -/

theorem foldl_deleteAudioBlob_store (keys : List String) :
    ∀ (st : St) (k : String),
      (keys.foldl (fun acc x => deleteAudioBlob x acc) st).store k =
        if k ∈ keys then none else st.store k := by
  induction keys with
  | nil => intro st k; simp
  | cons k0 ks ih =>
    intro st k
    simp only [List.foldl_cons]
    rw [ih (deleteAudioBlob k0 st) k]
    by_cases hk : k ∈ ks
    · rw [if_pos hk, if_pos (by simp [hk])]
    · by_cases hk0 : k = k0
      · rw [if_neg hk, if_pos (by simp [hk0])]
        simp [deleteAudioBlob, hk0]
      · rw [if_neg hk, if_neg (by simp [hk0, hk])]
        simp [deleteAudioBlob, hk0]

theorem foldl_deleteAudioBlob_jobs (keys : List String) :
    ∀ st : St, (keys.foldl (fun acc x => deleteAudioBlob x acc) st).jobs = st.jobs := by
  induction keys with
  | nil => intro st; rfl
  | cons k0 ks ih => intro st; rw [List.foldl_cons, ih]; rfl

theorem deleteJobAudioFiles_store (job : BatchJob) (st : St) (k : String) :
    (deleteJobAudioFiles job st).store k =
      if k ∈ referencedBlobKeys job then none else st.store k :=
  foldl_deleteAudioBlob_store (referencedBlobKeys job) st k

theorem deleteJobAudioFiles_jobs (job : BatchJob) (st : St) :
    (deleteJobAudioFiles job st).jobs = st.jobs :=
  foldl_deleteAudioBlob_jobs (referencedBlobKeys job) st

/-- Claim C4: deleting a stored Job removes from the blob store every key the
Job references—the mp3, webm and cover keys of `files` plus every script
item's `audioKey`—and removes the Job's metadata record; no referenced blob
survives, no unrelated blob or job is touched, and both effects happen in the
same operation (no partial deletion). -/
theorem C4_delete_job (id : String) (st : St) (job : BatchJob)
    (h : getBatchJob id st = some job) :
    (∀ k ∈ referencedBlobKeys job, (deleteBatchJob id st).store k = none) ∧
    getBatchJob id (deleteBatchJob id st) = none ∧
    (∀ k, k ∉ referencedBlobKeys job → (deleteBatchJob id st).store k = st.store k) ∧
    (∀ j ∈ st.jobs, j.id ≠ id → j ∈ (deleteBatchJob id st).jobs) ∧
    (∀ j ∈ (deleteBatchJob id st).jobs, j ∈ st.jobs ∧ j.id ≠ id) := by
  have hdel : deleteBatchJob id st =
      { deleteJobAudioFiles job st with
        jobs := (deleteJobAudioFiles job st).jobs.filter (fun j => j.id ≠ id) } := by
    unfold deleteBatchJob
    rw [h]
  rw [hdel]
  refine ⟨?_, ?_, ?_, ?_, ?_⟩
  · intro k hk
    show (deleteJobAudioFiles job st).store k = none
    rw [deleteJobAudioFiles_store, if_pos hk]
  · unfold getBatchJob
    apply List.find?_eq_none.mpr
    intro j hj
    have := (List.mem_filter.mp hj).2
    simp only [decide_not, Bool.not_eq_true', decide_eq_false_iff_not] at this
    simpa using this
  · intro k hk
    show (deleteJobAudioFiles job st).store k = st.store k
    rw [deleteJobAudioFiles_store, if_neg hk]
  · intro j hj hne
    show j ∈ (deleteJobAudioFiles job st).jobs.filter (fun j => j.id ≠ id)
    rw [deleteJobAudioFiles_jobs]
    exact List.mem_filter.mpr ⟨hj, by simpa using hne⟩
  · intro j hj
    have hm := List.mem_filter.mp hj
    rw [deleteJobAudioFiles_jobs] at hm
    refine ⟨hm.1, ?_⟩
    have := hm.2
    simpa using this

/-- The concrete state for the C4 witness: one stored job referencing four
blobs, plus one unrelated blob. -/
def c4Job : BatchJob :=
  { id := "j1", storyText := "s", status := .files_ready
    scriptData := some
      { cast := [], items := [{ id := "a", type := .speech, audioKey := some "j1_item_a" }] }
    files := some
      { mp3Key := some "j1_mp3_5", webmKey := some "j1_webm_5", coverKey := some "j1_cover" } }

def c4St : St :=
  { jobs := [c4Job]
    store := fun k =>
      if k = "j1_mp3_5" ∨ k = "j1_webm_5" ∨ k = "j1_cover" ∨ k = "j1_item_a" ∨ k = "other"
      then some (.b64 "x") else none
    trace := [] }

/-- Witness for C4 at the concrete one-job state. -/
theorem C4_delete_job_witness :
    (∀ k ∈ referencedBlobKeys c4Job, (deleteBatchJob "j1" c4St).store k = none) ∧
    getBatchJob "j1" (deleteBatchJob "j1" c4St) = none ∧
    (∀ k, k ∉ referencedBlobKeys c4Job →
      (deleteBatchJob "j1" c4St).store k = c4St.store k) ∧
    (∀ j ∈ c4St.jobs, j.id ≠ "j1" → j ∈ (deleteBatchJob "j1" c4St).jobs) ∧
    (∀ j ∈ (deleteBatchJob "j1" c4St).jobs, j ∈ c4St.jobs ∧ j.id ≠ "j1") :=
  C4_delete_job "j1" c4St c4Job (by decide)

/-! ## Characterization of the per-item loop (used by claims C3 and C10) -/

/-- The fate of one script item inside the `handleGenerateFiles` loop. -/
inductive ItemOutcome where
  | clip (b64 : String) (buffer : AudioBuffer) (format : String)
  | skipped
  | sfxFail (e : String)
deriving Repr, DecidableEq

/-- Replays the branch structure of one iteration of the `processItems`
loop: which audio (if any) an item contributes, or the error a failing sound
effect call would propagate. -/
def itemOutcome (env : Env) (cast : List CastMember) (item : ScriptItem) : ItemOutcome :=
  if item.type = ItemType.speech ∧ truthy item.text = true then
    let castMember := speechCastMember cast item
    let providerId := speechProviderId castMember
    let voiceId := speechVoiceId providerId castMember
    match env.tts providerId voiceId item with
    | .ok result =>
      .clip result.audioBase64
        (if result.format = "pcm" then env.decodePCM result.audioBase64
         else env.decodeFile result.audioBase64)
        (if result.format = "pcm" then "pcm" else "mp3")
    | .error _ => .skipped
  else if item.type = ItemType.sfx ∧ truthy item.sfxDescription = true ∧
      env.elevenLabsApiKey = true then
    match env.sfxGen (item.sfxDescription.getD "") with
    | .error e => .sfxFail e
    | .ok base64 => .clip base64 (env.decodeFile base64) "mp3"
  else .skipped

def isSfxFail : ItemOutcome → Bool
  | .sfxFail _ => true
  | _ => false

/-- No processed sound-effect item fails (the only uncaught per-item failure
mode of the loop). -/
def noSfxFailure (env : Env) (cast : List CastMember) (items : List ScriptItem) : Prop :=
  ∀ item ∈ items, isSfxFail (itemOutcome env cast item) = false

/-- The clips the loop collects: the buffers of the items whose synthesis
succeeded, in item order. -/
def successClips (env : Env) (cast : List CastMember) (items : List ScriptItem) :
    List AudioBuffer :=
  items.filterMap (fun item =>
    match itemOutcome env cast item with
    | .clip _ b _ => some b
    | _ => none)

/-- The item records after the loop: items that produced audio carry their
derived audio key and format; all other items are unchanged (their
`audioKey` in particular stays unset). -/
def updatedItemsOf (env : Env) (jobId : String) (cast : List CastMember)
    (items : List ScriptItem) : List ScriptItem :=
  items.map (fun item =>
    match itemOutcome env cast item with
    | .clip _ _ fmt =>
      { item with audioKey := some (generateItemAudioKey jobId item.id)
                  audioFormat := some fmt }
    | _ => item)

theorem processItems_state (env : Env) (jobId : String) (cast : List CastMember) :
    ∀ (items : List ScriptItem) (st : St),
      (processItems env jobId cast items st).1.jobs = st.jobs ∧
      (processItems env jobId cast items st).1.trace = st.trace := by
  intro items
  induction items with
  | nil => intro st; exact ⟨rfl, rfl⟩
  | cons item rest ih =>
    intro st
    simp only [processItems]
    split
    · split
      · exact ⟨(ih _).1, (ih _).2⟩
      · exact ⟨(ih st).1, (ih st).2⟩
    · split
      · split
        · exact ⟨rfl, rfl⟩
        · exact ⟨(ih _).1, (ih _).2⟩
      · exact ⟨(ih st).1, (ih st).2⟩

theorem processItems_store_frame (env : Env) (jobId : String) (cast : List CastMember) :
    ∀ (items : List ScriptItem) (st : St) (k : String),
      k ∉ items.map (fun it => generateItemAudioKey jobId it.id) →
      (processItems env jobId cast items st).1.store k = st.store k := by
  intro items
  induction items with
  | nil => intro st k _; rfl
  | cons item rest ih =>
    intro st k hk
    have hhead : k ≠ generateItemAudioKey jobId item.id := by
      intro he; exact hk (by simp [he])
    have htail : k ∉ rest.map (fun it => generateItemAudioKey jobId it.id) := by
      intro hm; exact hk (by simp [hm])
    simp only [processItems]
    split
    · split
      · rw [ih _ k htail]
        simp [saveItemAudioBase64, hhead]
      · exact ih st k htail
    · split
      · split
        · rfl
        · rw [ih _ k htail]
          simp [saveItemAudioBase64, hhead]
      · exact ih st k htail

theorem successClips_cons_clip (env : Env) (cast : List CastMember)
    (item : ScriptItem) (rest : List ScriptItem) (b64 : String) (b : AudioBuffer)
    (fmt : String) (h : itemOutcome env cast item = .clip b64 b fmt) :
    successClips env cast (item :: rest) = b :: successClips env cast rest := by
  simp [successClips, List.filterMap_cons, h]

theorem successClips_cons_skip (env : Env) (cast : List CastMember)
    (item : ScriptItem) (rest : List ScriptItem)
    (h : itemOutcome env cast item = .skipped) :
    successClips env cast (item :: rest) = successClips env cast rest := by
  simp [successClips, List.filterMap_cons, h]

theorem updatedItemsOf_cons_clip (env : Env) (jobId : String) (cast : List CastMember)
    (item : ScriptItem) (rest : List ScriptItem) (b64 : String) (b : AudioBuffer)
    (fmt : String) (h : itemOutcome env cast item = .clip b64 b fmt) :
    updatedItemsOf env jobId cast (item :: rest) =
      { item with audioKey := some (generateItemAudioKey jobId item.id)
                  audioFormat := some fmt } :: updatedItemsOf env jobId cast rest := by
  simp [updatedItemsOf, h]

theorem updatedItemsOf_cons_skip (env : Env) (jobId : String) (cast : List CastMember)
    (item : ScriptItem) (rest : List ScriptItem)
    (h : itemOutcome env cast item = .skipped) :
    updatedItemsOf env jobId cast (item :: rest) =
      item :: updatedItemsOf env jobId cast rest := by
  simp [updatedItemsOf, h]

theorem processItems_components (env : Env) (jobId : String) (cast : List CastMember) :
    ∀ (items : List ScriptItem) (st : St), noSfxFailure env cast items →
      (processItems env jobId cast items st).2.1 = successClips env cast items ∧
      (processItems env jobId cast items st).2.2.1 = updatedItemsOf env jobId cast items ∧
      (processItems env jobId cast items st).2.2.2 = none := by
  intro items
  induction items with
  | nil =>
    intro st _
    exact ⟨rfl, rfl, rfl⟩
  | cons item rest ih =>
    intro st hok
    have hrest : noSfxFailure env cast rest := fun x hx => hok x (by simp [hx])
    have hitem := hok item (by simp)
    simp only [processItems]
    split
    · rename_i hspeech
      split
      · rename_i result htts
        have hout : itemOutcome env cast item = .clip result.audioBase64
            (if result.format = "pcm" then env.decodePCM result.audioBase64
             else env.decodeFile result.audioBase64)
            (if result.format = "pcm" then "pcm" else "mp3") := by
          simp only [itemOutcome]
          rw [if_pos hspeech, htts]
        obtain ⟨h1, h2, h3⟩ := ih (saveItemAudioBase64 (generateItemAudioKey jobId item.id)
          result.audioBase64 st) hrest
        refine ⟨?_, ?_, ?_⟩
        · show _ :: (processItems env jobId cast rest _).2.1 = _
          rw [h1, successClips_cons_clip env cast item rest _ _ _ hout]
        · show _ :: (processItems env jobId cast rest _).2.2.1 = _
          rw [h2, updatedItemsOf_cons_clip env jobId cast item rest _ _ _ hout]
        · show (processItems env jobId cast rest _).2.2.2 = none
          exact h3
      · rename_i e htts
        have hout : itemOutcome env cast item = .skipped := by
          simp only [itemOutcome]
          rw [if_pos hspeech, htts]
        obtain ⟨h1, h2, h3⟩ := ih st hrest
        refine ⟨?_, ?_, ?_⟩
        · show (processItems env jobId cast rest st).2.1 = _
          rw [h1, successClips_cons_skip env cast item rest hout]
        · show _ :: (processItems env jobId cast rest st).2.2.1 = _
          rw [h2, updatedItemsOf_cons_skip env jobId cast item rest hout]
        · exact h3
    · rename_i hnspeech
      split
      · rename_i hsfx
        split
        · rename_i e hs
          have hout : itemOutcome env cast item = .sfxFail e := by
            simp only [itemOutcome]
            rw [if_neg hnspeech, if_pos hsfx, hs]
          rw [hout] at hitem
          exact absurd hitem (by simp [isSfxFail])
        · rename_i base64 hs
          have hout : itemOutcome env cast item = .clip base64 (env.decodeFile base64) "mp3" := by
            simp only [itemOutcome]
            rw [if_neg hnspeech, if_pos hsfx, hs]
          obtain ⟨h1, h2, h3⟩ := ih (saveItemAudioBase64 (generateItemAudioKey jobId item.id)
            base64 st) hrest
          refine ⟨?_, ?_, ?_⟩
          · show _ :: (processItems env jobId cast rest _).2.1 = _
            rw [h1, successClips_cons_clip env cast item rest _ _ _ hout]
          · show _ :: (processItems env jobId cast rest _).2.2.1 = _
            rw [h2, updatedItemsOf_cons_clip env jobId cast item rest _ _ _ hout]
          · exact h3
      · rename_i hnsfx
        have hout : itemOutcome env cast item = .skipped := by
          simp only [itemOutcome]
          rw [if_neg hnspeech, if_neg hnsfx]
        obtain ⟨h1, h2, h3⟩ := ih st hrest
        refine ⟨?_, ?_, ?_⟩
        · show (processItems env jobId cast rest st).2.1 = _
          rw [h1, successClips_cons_skip env cast item rest hout]
        · show _ :: (processItems env jobId cast rest st).2.2.1 = _
          rw [h2, updatedItemsOf_cons_skip env jobId cast item rest hout]
        · exact h3

theorem processItems_eq (env : Env) (jobId : String) (cast : List CastMember)
    (items : List ScriptItem) (st : St) (hok : noSfxFailure env cast items) :
    processItems env jobId cast items st =
      ((processItems env jobId cast items st).1,
       successClips env cast items,
       updatedItemsOf env jobId cast items,
       none) := by
  obtain ⟨h1, h2, h3⟩ := processItems_components env jobId cast items st hok
  calc processItems env jobId cast items st
      = ((processItems env jobId cast items st).1,
         (processItems env jobId cast items st).2.1,
         (processItems env jobId cast items st).2.2.1,
         (processItems env jobId cast items st).2.2.2) := rfl
    _ = _ := by rw [h1, h2, h3]

theorem itemOutcome_clip_buffer (env : Env) (cast : List CastMember)
    (item : ScriptItem) (b64 : String) (b : AudioBuffer) (fmt : String)
    (h : itemOutcome env cast item = .clip b64 b fmt) :
    b = env.decodePCM b64 ∨ b = env.decodeFile b64 := by
  simp only [itemOutcome] at h
  split at h
  · split at h
    · rename_i result htts
      rw [ItemOutcome.clip.injEq] at h
      obtain ⟨hb64, hb, _⟩ := h
      rw [← hb, ← hb64]
      split_ifs
      · exact Or.inl rfl
      · exact Or.inr rfl
    · exact absurd h (by simp)
  · split at h
    · split at h
      · exact absurd h (by simp)
      · rename_i base64 hs
        rw [ItemOutcome.clip.injEq] at h
        obtain ⟨hb64, hb, _⟩ := h
        rw [← hb, ← hb64]
        exact Or.inr rfl
    · exact absurd h (by simp)

theorem successClips_wellFormed (env : Env) (cast : List CastMember)
    (items : List ScriptItem)
    (hdec : ∀ s, (env.decodePCM s).wellFormed ∧ (env.decodeFile s).wellFormed) :
    ∀ b ∈ successClips env cast items, b.wellFormed := by
  intro b hb
  obtain ⟨item, hitem, hmatch⟩ := List.mem_filterMap.mp hb
  cases hout : itemOutcome env cast item with
  | clip b64 buf fmt =>
    rw [hout] at hmatch
    simp only [Option.some.injEq] at hmatch
    rw [← hmatch]
    rcases itemOutcome_clip_buffer env cast item b64 buf fmt hout with hpcm | hfile
    · rw [hpcm]; exact (hdec b64).1
    · rw [hfile]; exact (hdec b64).2
  | skipped => rw [hout] at hmatch; simp at hmatch
  | sfxFail e => rw [hout] at hmatch; simp at hmatch

theorem createWebmVideo_ok (loadImage : String → Except String LoadedImage)
    (himg : ∀ s, ∃ img, loadImage s = .ok img)
    (buffer : AudioBuffer) (cover : String) (duration : ℚ) :
    ∃ v, createWebmVideo loadImage buffer cover duration = .ok v := by
  unfold createWebmVideo createDynamicWebmVideo
  obtain ⟨res, hres, _⟩ := loadImages_ok_of_forall loadImage _ (fun b _ => himg b)
  rw [hres]
  exact ⟨_, rfl⟩

/-- The job record `handleGenerateFiles` persists on its success path. -/
def filesSuccessJob (env : Env) (job : BatchJob) (now : ℕ) (sd : BatchJobScriptData)
    (coverOpt : Option String) (webmOpt : Option WebmVideo) : BatchJob :=
  { job with
    status := .files_ready
    podcastTitle := some (orTruthy ((sd.podcastInfo).map (·.podcastName))
      (orTruthy job.podcastTitle "Podcast"))
    episodeTitle := some (orTruthy ((sd.podcastInfo).map (·.episodeTitle))
      (orTruthy job.episodeTitle "New Episode"))
    podcastDescription := some (orTruthy ((sd.podcastInfo).map (·.description))
      (orTruthy job.podcastDescription (job.storyText.take 500)))
    scriptData := some { sd with items := updatedItemsOf env job.id sd.cast sd.items }
    files := some
      { mp3Key := some (generateAudioKey job.id "mp3" now)
        webmKey := webmOpt.map (fun _ => generateAudioKey job.id "webm" now)
        coverKey := coverOpt.map (fun _ => job.id ++ "_cover") } }

/-- The blob-store state after the artifact saves of the success path,
starting from the state `st2` left by the per-item loop. -/
def filesSuccessState (env : Env) (job : BatchJob) (now : ℕ) (st2 : St)
    (merged : AudioBuffer) (coverOpt : Option String) (webmOpt : Option WebmVideo) : St :=
  let st3 := saveAudioBlob (generateAudioKey job.id "mp3" now)
    (bufferToMp3 env.mp3Encoder merged) st2
  let st4 :=
    match webmOpt, webmOpt.map (fun _ => generateAudioKey job.id "webm" now) with
    | some v, some k => saveAudioBlob k { mimeType := "video/webm", content := .webm v } st3
    | _, _ => st3
  match coverOpt, coverOpt.map (fun _ => job.id ++ "_cover") with
  | some c, some k => saveItemAudioBase64 k c st4
  | _, _ => st4

/-- Equation for the success path of `handleGenerateFiles`: the whole run,
spelled out, once the per-item loop raised no sound-effect error, at least
one clip succeeded, the merge succeeded, and the cover/webm stage resolved
to `coverOpt`/`webmOpt`. -/
theorem handleGenerateFiles_run (env : Env) (job : BatchJob) (now : ℕ) (st : St)
    (sd : BatchJobScriptData) (merged : AudioBuffer)
    (coverOpt : Option String) (webmOpt : Option WebmVideo)
    (hsd : job.scriptData = some sd)
    (hok : noSfxFailure env sd.cast sd.items)
    (hne : successClips env sd.cast sd.items ≠ [])
    (hmerge : mergeAudioBuffers (successClips env sd.cast sd.items) = .ok merged)
    (hcover : (if env.geminiApiKey then
        match env.coverGen (orTruthy ((sd.podcastInfo).map (·.coverPrompt))
          ("Based on story: " ++ job.storyText.take 300)) with
        | .ok c => some c
        | .error _ => none
      else none) = coverOpt)
    (hwebm : (match coverOpt with
        | some c => (createWebmVideo env.loadImage merged c merged.duration).map some
        | none => (.ok none : Except String (Option WebmVideo))) = .ok webmOpt) :
    handleGenerateFiles env job now st =
      (updateBatchJobFull job.id
        (filesSuccessJob env job now sd coverOpt webmOpt) now
        (filesSuccessState env job now
          ((processItems env job.id sd.cast sd.items
            (updateBatchJob job.id { status := some .generating } now st)).1)
          merged coverOpt webmOpt),
       .ok (filesSuccessJob env job now sd coverOpt webmOpt)) := by
  obtain ⟨hclips, hitems, herr⟩ := processItems_components env job.id sd.cast sd.items
    (updateBatchJob job.id { status := some .generating } now st) hok
  unfold handleGenerateFiles
  rw [hsd]
  simp only []
  rw [herr]
  simp only []
  rw [hclips, if_neg hne, hmerge]
  simp only []
  rw [hitems, hcover, hwebm]
  simp only [filesSuccessJob, filesSuccessState]

/-! ## Claim C3: per-item failure isolation in the file-generation step -/

theorem handleGenerateFiles_noAudio (env : Env) (job : BatchJob) (now : ℕ) (st : St)
    (sd : BatchJobScriptData)
    (hsd : job.scriptData = some sd)
    (hok : noSfxFailure env sd.cast sd.items)
    (hempty : successClips env sd.cast sd.items = []) :
    handleGenerateFiles env job now st =
      ((processItems env job.id sd.cast sd.items
         (updateBatchJob job.id { status := some .generating } now st)).1,
       .error "No audio generated") := by
  obtain ⟨hclips, hitems, herr⟩ := processItems_components env job.id sd.cast sd.items
    (updateBatchJob job.id { status := some .generating } now st) hok
  unfold handleGenerateFiles
  rw [hsd]
  simp only []
  rw [herr]
  simp only []
  rw [hclips, if_pos hempty]

def c3Buf : AudioBuffer := { sampleRate := 44100, channelData := [[0]] }

/-- The environment of the C3 counterexample: speech synthesis always
succeeds, sound-effect synthesis always throws. -/
def c3Env : Env :=
  { scriptGen := fun _ => .error "unused"
    ttsProvider := "gemini"
    elevenLabsVoices := []
    tts := fun _ _ _ => .ok { format := "pcm", audioBase64 := "AA" }
    decodePCM := fun _ => c3Buf
    decodeFile := fun _ => c3Buf
    sfxGen := fun _ => .error "sfx boom"
    geminiApiKey := false
    elevenLabsApiKey := true
    coverGen := fun _ => .error "unused"
    mp3Encoder := fun _ => .ok [1]
    loadImage := fun _ => .ok { width := 1, height := 1 }
    token := none
    upload := fun _ => .error "unused" }

def c3Items : List ScriptItem :=
  [{ id := "i1", type := .speech, text := some "hello" },
   { id := "i2", type := .sfx, sfxDescription := some "boom" }]

def c3Job : BatchJob :=
  { id := "j3", storyText := "story", status := .script_ready
    scriptData := some { cast := [], items := c3Items } }

def c3St : St := { jobs := [c3Job], store := fun _ => none, trace := [] }

/-- Claim C3, counterexample: a synthesis failure for a sound-effect script
item is NOT caught—the whole file-generation step aborts with the propagated
error—even though the speech item before it succeeded, so the job does not
reach `files_ready` despite one successful clip. -/
theorem C3_counterexample :
    (handleGenerateFiles c3Env c3Job 7 c3St).2 = .error "sfx boom" ∧
    itemOutcome c3Env [] { id := "i1", type := .speech, text := some "hello" } =
      .clip "AA" c3Buf "pcm" := by
  constructor
  · rfl
  · rfl

/-- Claim C3 (amended): in the file-generation step, a synthesis failure for
a speech item is caught and the item is skipped with its record (in
particular its `audioKey`) left unchanged, while the step continues; when no
processed sound-effect item fails, the step reaches `files_ready` whenever
at least one clip succeeded—provided decoding yields platform-well-formed
buffers and the video render's image loads succeed when a cover is
produced—and the merged (and then mp3-encoded and stored) audio is the merge
of exactly the successful clips in script order; zero successful clips is a
hard failure (`No audio generated`) and the step never reaches
`files_ready`.  A failing sound-effect item, by contrast, aborts the whole
step (see the counterexample). -/
theorem C3_partial_failure (env : Env) (job : BatchJob) (now : ℕ) (st : St)
    (sd : BatchJobScriptData)
    (hsd : job.scriptData = some sd)
    (hok : noSfxFailure env sd.cast sd.items)
    (hdec : ∀ s, (env.decodePCM s).wellFormed ∧ (env.decodeFile s).wellFormed)
    (himg : ∀ s, ∃ img, env.loadImage s = .ok img)
    (hk1 : generateAudioKey job.id "mp3" now ≠ generateAudioKey job.id "webm" now)
    (hk2 : generateAudioKey job.id "mp3" now ≠ job.id ++ "_cover") :
    (∀ (i : ℕ) (hi : i < sd.items.length),
      itemOutcome env sd.cast (sd.items.get ⟨i, hi⟩) = .skipped →
      ∃ hi2 : i < (updatedItemsOf env job.id sd.cast sd.items).length,
        (updatedItemsOf env job.id sd.cast sd.items).get ⟨i, hi2⟩ =
          sd.items.get ⟨i, hi⟩) ∧
    (successClips env sd.cast sd.items ≠ [] →
      ∃ st' uj merged,
        handleGenerateFiles env job now st = (st', .ok uj) ∧
        uj.id = job.id ∧
        uj.status = .files_ready ∧
        uj.scriptData = some { sd with items := updatedItemsOf env job.id sd.cast sd.items } ∧
        mergeAudioBuffers (successClips env sd.cast sd.items) = .ok merged ∧
        st'.store (generateAudioKey job.id "mp3" now) =
          some (.blob (bufferToMp3 env.mp3Encoder merged))) ∧
    (successClips env sd.cast sd.items = [] →
      (handleGenerateFiles env job now st).2 = .error "No audio generated") := by
  refine ⟨?_, ?_, ?_⟩
  · intro i hi hskip
    refine ⟨by simpa [updatedItemsOf] using hi, ?_⟩
    unfold updatedItemsOf
    rw [List.get_map]
    rw [hskip]
  · intro hne
    have hwfAll := successClips_wellFormed env sd.cast sd.items hdec
    have hpos := totalLength_pos _ hne hwfAll
    have hmerge := mergeAudioBuffers_ok _ hpos
    set merged : AudioBuffer :=
      { sampleRate := targetSampleRate
        channelData := [(List.range (totalLength (successClips env sd.cast sd.items))).map
          (mixAt (successClips env sd.cast sd.items))] } with hmergedDef
    cases hgem : env.geminiApiKey with
    | false =>
      have hcover : (if env.geminiApiKey then
          match env.coverGen (orTruthy ((sd.podcastInfo).map (·.coverPrompt))
            ("Based on story: " ++ job.storyText.take 300)) with
          | .ok c => some c
          | .error _ => none
        else none) = (none : Option String) := by
        rw [hgem]
        rfl
      have hrun := handleGenerateFiles_run env job now st sd merged none none
        hsd hok hne hmerge hcover rfl
      refine ⟨_, _, merged, hrun, rfl, rfl, rfl, hmerge, ?_⟩
      show (filesSuccessState env job now _ merged none none).store _ = _
      unfold filesSuccessState
      simp only [Option.map_none', saveAudioBlob]
      simp
    | true =>
      cases hcg : env.coverGen (orTruthy ((sd.podcastInfo).map (·.coverPrompt))
          ("Based on story: " ++ job.storyText.take 300)) with
      | error e =>
        have hcover : (if env.geminiApiKey then
            match env.coverGen (orTruthy ((sd.podcastInfo).map (·.coverPrompt))
              ("Based on story: " ++ job.storyText.take 300)) with
            | .ok c => some c
            | .error _ => none
          else none) = (none : Option String) := by
          rw [hgem, if_pos rfl, hcg]
        have hrun := handleGenerateFiles_run env job now st sd merged none none
          hsd hok hne hmerge hcover rfl
        refine ⟨_, _, merged, hrun, rfl, rfl, rfl, hmerge, ?_⟩
        show (filesSuccessState env job now _ merged none none).store _ = _
        unfold filesSuccessState
        simp only [Option.map_none', saveAudioBlob]
        simp
      | ok c =>
        have hcover : (if env.geminiApiKey then
            match env.coverGen (orTruthy ((sd.podcastInfo).map (·.coverPrompt))
              ("Based on story: " ++ job.storyText.take 300)) with
            | .ok c => some c
            | .error _ => none
          else none) = some c := by
          rw [hgem, if_pos rfl, hcg]
        obtain ⟨v, hv⟩ := createWebmVideo_ok env.loadImage himg merged c merged.duration
        have hwebm : (match (some c : Option String) with
            | some c2 => (createWebmVideo env.loadImage merged c2 merged.duration).map some
            | none => (.ok none : Except String (Option WebmVideo))) = .ok (some v) := by
          simp only []
          rw [hv]
          rfl
        have hrun := handleGenerateFiles_run env job now st sd merged (some c) (some v)
          hsd hok hne hmerge hcover hwebm
        refine ⟨_, _, merged, hrun, rfl, rfl, rfl, hmerge, ?_⟩
        show (filesSuccessState env job now _ merged (some c) (some v)).store _ = _
        unfold filesSuccessState
        simp only [Option.map_some', saveAudioBlob, saveItemAudioBase64]
        rw [if_neg hk2, if_neg hk1]
        simp
  · intro hempty
    rw [handleGenerateFiles_noAudio env job now st sd hsd hok hempty]

/-- The environment of the C3 witness: two speech items, the second of
which fails to synthesize. -/
def c3wEnv : Env :=
  { scriptGen := fun _ => .error "unused"
    ttsProvider := "gemini"
    elevenLabsVoices := []
    tts := fun _ _ item =>
      if item.id = "s2" then .error "tts fail"
      else .ok { format := "pcm", audioBase64 := "AA" }
    decodePCM := fun _ => c3Buf
    decodeFile := fun _ => c3Buf
    sfxGen := fun _ => .ok "SS"
    geminiApiKey := false
    elevenLabsApiKey := false
    coverGen := fun _ => .error "unused"
    mp3Encoder := fun _ => .ok [1, 2]
    loadImage := fun _ => .ok { width := 1, height := 1 }
    token := none
    upload := fun _ => .error "unused" }

def c3wSd : BatchJobScriptData :=
  { cast := []
    items := [{ id := "s1", type := .speech, text := some "a" },
              { id := "s2", type := .speech, text := some "b" }] }

def c3wJob : BatchJob :=
  { id := "jw", storyText := "story", status := .script_ready, scriptData := some c3wSd }

def c3wSt : St := { jobs := [c3wJob], store := fun _ => none, trace := [] }

/-- Witness for C3 (amended) at a concrete job whose second speech item
fails to synthesize. -/
theorem C3_partial_failure_witness :
    (∀ (i : ℕ) (hi : i < c3wSd.items.length),
      itemOutcome c3wEnv c3wSd.cast (c3wSd.items.get ⟨i, hi⟩) = .skipped →
      ∃ hi2 : i < (updatedItemsOf c3wEnv c3wJob.id c3wSd.cast c3wSd.items).length,
        (updatedItemsOf c3wEnv c3wJob.id c3wSd.cast c3wSd.items).get ⟨i, hi2⟩ =
          c3wSd.items.get ⟨i, hi⟩) ∧
    (successClips c3wEnv c3wSd.cast c3wSd.items ≠ [] →
      ∃ st' uj merged,
        handleGenerateFiles c3wEnv c3wJob 9 c3wSt = (st', .ok uj) ∧
        uj.id = c3wJob.id ∧
        uj.status = .files_ready ∧
        uj.scriptData = some
          { c3wSd with items := updatedItemsOf c3wEnv c3wJob.id c3wSd.cast c3wSd.items } ∧
        mergeAudioBuffers (successClips c3wEnv c3wSd.cast c3wSd.items) = .ok merged ∧
        st'.store (generateAudioKey c3wJob.id "mp3" 9) =
          some (.blob (bufferToMp3 c3wEnv.mp3Encoder merged))) ∧
    (successClips c3wEnv c3wSd.cast c3wSd.items = [] →
      (handleGenerateFiles c3wEnv c3wJob 9 c3wSt).2 = .error "No audio generated") :=
  C3_partial_failure c3wEnv c3wJob 9 c3wSt c3wSd rfl
    (by unfold noSfxFailure; decide)
    (by intro s
        exact ⟨(by decide : c3Buf.wellFormed), (by decide : c3Buf.wellFormed)⟩)
    (fun _ => ⟨{ width := 1, height := 1 }, rfl⟩)
    (by decide) (by decide)

/-! ## Lemmas about job-record updates and the blob store (used by C10
and C9) -/

theorem find?_update_self (jobs : List BatchJob) (id : String) (g : BatchJob → BatchJob)
    (hg : ∀ j, j.id = id → (g j).id = id) :
    (jobs.map (fun j => if j.id = id then g j else j)).find? (fun j => decide (j.id = id)) =
      (jobs.find? (fun j => decide (j.id = id))).map g := by
  rw [List.find?_map]
  have hpred : ((fun j : BatchJob => decide (j.id = id)) ∘
      (fun j => if j.id = id then g j else j)) = (fun j : BatchJob => decide (j.id = id)) := by
    funext j
    simp only [Function.comp]
    by_cases hj : j.id = id
    · simp [hj, hg j hj]
    · simp [hj]
  rw [hpred]
  cases hfind : jobs.find? (fun j => decide (j.id = id)) with
  | none => rfl
  | some j0 =>
    have hj0 : j0.id = id := by simpa using List.find?_some hfind
    simp [if_pos hj0]

theorem find?_update_other (jobs : List BatchJob) (id tid : String)
    (g : BatchJob → BatchJob) (hg : ∀ j, j.id = id → (g j).id = id) (hne : tid ≠ id) :
    (jobs.map (fun j => if j.id = id then g j else j)).find? (fun j => decide (j.id = tid)) =
      jobs.find? (fun j => decide (j.id = tid)) := by
  rw [List.find?_map]
  have hpred : ((fun j : BatchJob => decide (j.id = tid)) ∘
      (fun j => if j.id = id then g j else j)) = (fun j : BatchJob => decide (j.id = tid)) := by
    funext j
    simp only [Function.comp]
    by_cases hj : j.id = id
    · simp [hj, hg j hj]
    · simp [hj]
  rw [hpred]
  cases hfind : jobs.find? (fun j => decide (j.id = tid)) with
  | none => rfl
  | some j0 =>
    have hj0 : j0.id = tid := by simpa using List.find?_some hfind
    have : ¬j0.id = id := by rw [hj0]; exact hne
    simp [if_neg this]

theorem map_update_ids (jobs : List BatchJob) (id : String) (g : BatchJob → BatchJob)
    (hg : ∀ j, j.id = id → (g j).id = id) :
    (jobs.map (fun j => if j.id = id then g j else j)).map (fun j => j.id) =
      jobs.map (fun j => j.id) := by
  rw [List.map_map]
  apply List.map_congr_left
  intro j _
  simp only [Function.comp]
  by_cases hj : j.id = id
  · rw [if_pos hj, hg j hj, hj]
  · rw [if_neg hj]

theorem applyUpdates_id (j : BatchJob) (u : JobUpdates) (now : ℕ) :
    (applyUpdates j u now).id = j.id := rfl

theorem getBatchJob_updateBatchJob_self (id : String) (u : JobUpdates) (now : ℕ) (st : St) :
    getBatchJob id (updateBatchJob id u now st) =
      (getBatchJob id st).map (fun j => applyUpdates j u now) :=
  find?_update_self st.jobs id (fun j => applyUpdates j u now) (fun _ h => h)

theorem getBatchJob_updateBatchJob_other (id tid : String) (u : JobUpdates) (now : ℕ)
    (st : St) (hne : tid ≠ id) :
    getBatchJob tid (updateBatchJob id u now st) = getBatchJob tid st :=
  find?_update_other st.jobs id tid (fun j => applyUpdates j u now) (fun _ h => h) hne

theorem getBatchJob_updateBatchJobFull_self (id : String) (newJob : BatchJob) (now : ℕ)
    (st : St) (hid : newJob.id = id) :
    getBatchJob id (updateBatchJobFull id newJob now st) =
      (getBatchJob id st).map (fun _ => { newJob with updatedAt := now }) :=
  find?_update_self st.jobs id (fun _ => { newJob with updatedAt := now }) (fun _ _ => hid)

theorem getBatchJob_updateBatchJobFull_other (id tid : String) (newJob : BatchJob)
    (now : ℕ) (st : St) (hid : newJob.id = id) (hne : tid ≠ id) :
    getBatchJob tid (updateBatchJobFull id newJob now st) = getBatchJob tid st :=
  find?_update_other st.jobs id tid (fun _ => { newJob with updatedAt := now })
    (fun _ _ => hid) hne

theorem processItems_store_some (env : Env) (jobId : String) (cast : List CastMember) :
    ∀ (items : List ScriptItem) (st : St) (k : String) (w : StoredValue),
      st.store k = some w →
      ∃ w', (processItems env jobId cast items st).1.store k = some w' := by
  intro items
  induction items with
  | nil => intro st k w hw; exact ⟨w, hw⟩
  | cons item rest ih =>
    intro st k w hw
    have hsave : ∀ key b64, ∃ w2,
        (saveItemAudioBase64 key b64 st).store k = some w2 := by
      intro key b64
      by_cases hk : k = key
      · exact ⟨.b64 b64, by simp [saveItemAudioBase64, hk]⟩
      · exact ⟨w, by simp [saveItemAudioBase64, hk, hw]⟩
    simp only [processItems]
    split
    · split
      · obtain ⟨w2, hw2⟩ := hsave (generateItemAudioKey jobId item.id) _
        exact ih _ k w2 hw2
      · exact ih st k w hw
    · split
      · split
        · exact ⟨w, hw⟩
        · obtain ⟨w2, hw2⟩ := hsave (generateItemAudioKey jobId item.id) _
          exact ih _ k w2 hw2
      · exact ih st k w hw

theorem updatedItemsOf_audioKeys (env : Env) (jobId : String) (cast : List CastMember)
    (items : List ScriptItem) (k : String)
    (h1 : k ∉ items.map (fun it => generateItemAudioKey jobId it.id))
    (h2 : k ∉ items.filterMap (fun it => it.audioKey)) :
    k ∉ (updatedItemsOf env jobId cast items).filterMap (fun it => it.audioKey) := by
  intro hk
  obtain ⟨it2, hit2, hkey⟩ := List.mem_filterMap.mp hk
  obtain ⟨it, hit, hmk⟩ := List.mem_map.mp hit2
  cases hout : itemOutcome env cast it with
  | clip b64 b fmt =>
    rw [hout] at hmk
    rw [← hmk] at hkey
    simp only [Option.some.injEq] at hkey
    exact h1 (List.mem_map.mpr ⟨it, hit, by rw [hkey]⟩)
  | skipped =>
    rw [hout] at hmk
    rw [← hmk] at hkey
    exact h2 (List.mem_filterMap.mpr ⟨it, hit, hkey⟩)
  | sfxFail e =>
    rw [hout] at hmk
    rw [← hmk] at hkey
    exact h2 (List.mem_filterMap.mpr ⟨it, hit, hkey⟩)

/-! ## Claim C10: re-running file generation stores fresh artifacts and
orphans (never deletes) the old ones -/

theorem getBatchJob_congr_jobs (id : String) (stA stB : St) (h : stA.jobs = stB.jobs) :
    getBatchJob id stA = getBatchJob id stB := by
  unfold getBatchJob
  rw [h]

/-- Claim C10: re-invoking `handleGenerateFiles` on a Job whose `files`
already name stored blobs saves the new mp3/webm artifacts under the fresh
timestamp-derived keys, overwrites the Job's `files` references with those
new keys, and never deletes anything from the blob store: the blobs named by
the previous references remain present, but no stored Job references them
any more.  (Freshness of the `Date.now()`-derived keys relative to the old
ones, and the success of the run, are hypotheses.) -/
theorem C10_regenerate_files (env : Env) (job : BatchJob) (now : ℕ) (st : St)
    (sd : BatchJobScriptData) (f0 : BatchJobFiles) (k1 k2 : String)
    (v1 v2 : StoredValue) (c : String)
    (hpresent : getBatchJob job.id st = some job)
    (hsd : job.scriptData = some sd)
    (hfiles : job.files = some f0)
    (hk1 : f0.mp3Key = some k1) (hk2 : f0.webmKey = some k2)
    (hblob1 : st.store k1 = some v1) (hblob2 : st.store k2 = some v2)
    (hok : noSfxFailure env sd.cast sd.items)
    (hdec : ∀ s, (env.decodePCM s).wellFormed ∧ (env.decodeFile s).wellFormed)
    (himg : ∀ s, ∃ img, env.loadImage s = .ok img)
    (hne : successClips env sd.cast sd.items ≠ [])
    (hgem : env.geminiApiKey = true)
    (hcov : env.coverGen (orTruthy ((sd.podcastInfo).map (·.coverPrompt))
      ("Based on story: " ++ job.storyText.take 300)) = .ok c)
    (hf1 : k1 ≠ generateAudioKey job.id "mp3" now)
    (hf2 : k1 ≠ generateAudioKey job.id "webm" now)
    (hf3 : k1 ≠ job.id ++ "_cover")
    (hf4 : k1 ∉ sd.items.map (fun it => generateItemAudioKey job.id it.id))
    (hf5 : k1 ∉ sd.items.filterMap (fun it => it.audioKey))
    (hg1 : k2 ≠ generateAudioKey job.id "mp3" now)
    (hg2 : k2 ≠ generateAudioKey job.id "webm" now)
    (hg3 : k2 ≠ job.id ++ "_cover")
    (hg4 : k2 ∉ sd.items.map (fun it => generateItemAudioKey job.id it.id))
    (hg5 : k2 ∉ sd.items.filterMap (fun it => it.audioKey))
    (hd1 : generateAudioKey job.id "mp3" now ≠ generateAudioKey job.id "webm" now)
    (hd2 : generateAudioKey job.id "mp3" now ≠ job.id ++ "_cover")
    (hd3 : generateAudioKey job.id "webm" now ≠ job.id ++ "_cover")
    (hothers : ∀ j' ∈ st.jobs, j'.id ≠ job.id →
      k1 ∉ referencedBlobKeys j' ∧ k2 ∉ referencedBlobKeys j') :
    ∃ st' uj merged,
      handleGenerateFiles env job now st = (st', .ok uj) ∧
      mergeAudioBuffers (successClips env sd.cast sd.items) = .ok merged ∧
      st'.store (generateAudioKey job.id "mp3" now) =
        some (.blob (bufferToMp3 env.mp3Encoder merged)) ∧
      (∃ v, st'.store (generateAudioKey job.id "webm" now) =
        some (.blob { mimeType := "video/webm", content := .webm v })) ∧
      uj.files = some
        { mp3Key := some (generateAudioKey job.id "mp3" now)
          webmKey := some (generateAudioKey job.id "webm" now)
          coverKey := some (job.id ++ "_cover") } ∧
      getBatchJob job.id st' = some { uj with updatedAt := now } ∧
      st'.store k1 = some v1 ∧
      st'.store k2 = some v2 ∧
      (∀ k w, st.store k = some w → ∃ w', st'.store k = some w') ∧
      (∀ j' ∈ st'.jobs, k1 ∉ referencedBlobKeys j' ∧ k2 ∉ referencedBlobKeys j') := by
  have hwfAll := successClips_wellFormed env sd.cast sd.items hdec
  have hpos := totalLength_pos _ hne hwfAll
  have hmerge := mergeAudioBuffers_ok _ hpos
  set merged : AudioBuffer :=
    { sampleRate := targetSampleRate
      channelData := [(List.range (totalLength (successClips env sd.cast sd.items))).map
        (mixAt (successClips env sd.cast sd.items))] } with hmergedDef
  have hcover : (if env.geminiApiKey then
      match env.coverGen (orTruthy ((sd.podcastInfo).map (·.coverPrompt))
        ("Based on story: " ++ job.storyText.take 300)) with
      | .ok c2 => some c2
      | .error _ => none
    else none) = some c := by
    rw [hgem, if_pos rfl, hcov]
  obtain ⟨v, hv⟩ := createWebmVideo_ok env.loadImage himg merged c merged.duration
  have hwebm : (match (some c : Option String) with
      | some c2 => (createWebmVideo env.loadImage merged c2 merged.duration).map some
      | none => (.ok none : Except String (Option WebmVideo))) = .ok (some v) := by
    simp only []
    rw [hv]
    rfl
  have hrun := handleGenerateFiles_run env job now st sd merged (some c) (some v)
    hsd hok hne hmerge hcover hwebm
  set st1 := updateBatchJob job.id { status := some .generating } now st with hst1
  set st2 := (processItems env job.id sd.cast sd.items st1).1 with hst2
  set st5 := filesSuccessState env job now st2 merged (some c) (some v) with hst5
  set uj := filesSuccessJob env job now sd (some c) (some v) with huj
  have hstore5 : ∀ k, st5.store k =
      if k = job.id ++ "_cover" then some (.b64 c)
      else if k = generateAudioKey job.id "webm" now then
        some (.blob { mimeType := "video/webm", content := .webm v })
      else if k = generateAudioKey job.id "mp3" now then
        some (.blob (bufferToMp3 env.mp3Encoder merged))
      else st2.store k := by
    intro k
    rw [hst5]
    simp only [filesSuccessState, Option.map_some', saveAudioBlob, saveItemAudioBase64]
  have hjobs5 : st5.jobs = st2.jobs := by
    rw [hst5]
    simp only [filesSuccessState, Option.map_some', saveAudioBlob, saveItemAudioBase64]
  have hjobs2 : st2.jobs = st1.jobs :=
    (processItems_state env job.id sd.cast sd.items st1).1
  have hstore1 : st1.store = st.store := rfl
  refine ⟨updateBatchJobFull job.id uj now st5, uj, merged, hrun, hmerge, ?_, ?_, ?_, ?_,
    ?_, ?_, ?_, ?_⟩
  · show st5.store _ = _
    rw [hstore5, if_neg hd2, if_neg hd1, if_pos rfl]
  · refine ⟨v, ?_⟩
    show st5.store _ = _
    rw [hstore5, if_neg hd3, if_pos rfl]
  · rfl
  · rw [getBatchJob_updateBatchJobFull_self job.id uj now st5 rfl]
    have hgb5 : getBatchJob job.id st5 = getBatchJob job.id st1 := by
      apply getBatchJob_congr_jobs
      rw [hjobs5, hjobs2]
    rw [hgb5, hst1, getBatchJob_updateBatchJob_self, hpresent]
    rfl
  · show st5.store k1 = some v1
    rw [hstore5, if_neg hf3, if_neg hf2, if_neg hf1]
    rw [hst2, processItems_store_frame env job.id sd.cast sd.items st1 k1 hf4]
    rw [hstore1]
    exact hblob1
  · show st5.store k2 = some v2
    rw [hstore5, if_neg hg3, if_neg hg2, if_neg hg1]
    rw [hst2, processItems_store_frame env job.id sd.cast sd.items st1 k2 hg4]
    rw [hstore1]
    exact hblob2
  · intro k w hw
    show ∃ w', st5.store k = some w'
    rw [hstore5]
    by_cases hc1 : k = job.id ++ "_cover"
    · exact ⟨_, by rw [if_pos hc1]⟩
    · rw [if_neg hc1]
      by_cases hc2 : k = generateAudioKey job.id "webm" now
      · exact ⟨_, by rw [if_pos hc2]⟩
      · rw [if_neg hc2]
        by_cases hc3 : k = generateAudioKey job.id "mp3" now
        · exact ⟨_, by rw [if_pos hc3]⟩
        · rw [if_neg hc3]
          have hw1 : st1.store k = some w := by rw [hstore1]; exact hw
          exact processItems_store_some env job.id sd.cast sd.items st1 k w hw1
  · intro j' hj'
    have hjobs' : (updateBatchJobFull job.id uj now st5).jobs =
        (st.jobs.map (fun j => if j.id = job.id then
          applyUpdates j { status := some .generating } now else j)).map
          (fun j => if j.id = job.id then { uj with updatedAt := now } else j) := by
      show st5.jobs.map _ = _
      rw [hjobs5, hjobs2]
      rfl
    rw [hjobs'] at hj'
    obtain ⟨j1, hj1, hj1eq⟩ := List.mem_map.mp hj'
    obtain ⟨j0, hj0, hj0eq⟩ := List.mem_map.mp hj1
    by_cases hid : j0.id = job.id
    · have hj1id : j1.id = job.id := by
        rw [← hj0eq, if_pos hid]
        exact hid
      have hj'eq : j' = { uj with updatedAt := now } := by
        rw [← hj1eq, if_pos hj1id]
      rw [hj'eq]
      have hrefs : referencedBlobKeys { uj with updatedAt := now } =
          [generateAudioKey job.id "mp3" now] ++ [generateAudioKey job.id "webm" now] ++
          [job.id ++ "_cover"] ++
          (updatedItemsOf env job.id sd.cast sd.items).filterMap (fun it => it.audioKey) := by
        rw [huj]
        simp only [referencedBlobKeys, filesSuccessJob, Option.map_some']
        rfl
      rw [hrefs]
      constructor
      · intro hmem
        simp only [List.append_assoc, List.mem_append, List.mem_singleton] at hmem
        rcases hmem with h | h | h | h
        · exact hf1 h
        · exact hf2 h
        · exact hf3 h
        · exact updatedItemsOf_audioKeys env job.id sd.cast sd.items k1 hf4 hf5 h
      · intro hmem
        simp only [List.append_assoc, List.mem_append, List.mem_singleton] at hmem
        rcases hmem with h | h | h | h
        · exact hg1 h
        · exact hg2 h
        · exact hg3 h
        · exact updatedItemsOf_audioKeys env job.id sd.cast sd.items k2 hg4 hg5 h
    · have hj1eq' : j1 = j0 := by rw [← hj0eq, if_neg hid]
      have hj1id : j1.id ≠ job.id := by rw [hj1eq']; exact hid
      have hj'eq : j' = j0 := by
        rw [← hj1eq, if_neg hj1id, hj1eq']
      rw [hj'eq]
      exact hothers j0 hj0 hid

def c10Buf : AudioBuffer := { sampleRate := 44100, channelData := [[0]] }

/-- The environment of the C10 witness: everything succeeds. -/
def c10Env : Env :=
  { scriptGen := fun _ => .error "unused"
    ttsProvider := "gemini"
    elevenLabsVoices := []
    tts := fun _ _ _ => .ok { format := "pcm", audioBase64 := "AA" }
    decodePCM := fun _ => c10Buf
    decodeFile := fun _ => c10Buf
    sfxGen := fun _ => .ok "SS"
    geminiApiKey := true
    elevenLabsApiKey := false
    coverGen := fun _ => .ok "CC"
    mp3Encoder := fun _ => .ok [3]
    loadImage := fun _ => .ok { width := 1, height := 1 }
    token := none
    upload := fun _ => .error "unused" }

def c10Sd : BatchJobScriptData :=
  { cast := [], items := [{ id := "s1", type := .speech, text := some "a" }] }

def c10Files : BatchJobFiles :=
  { mp3Key := some "jX_mp3_1", webmKey := some "jX_webm_1", coverKey := some "jX_cover" }

def c10Job : BatchJob :=
  { id := "jX", storyText := "story", status := .files_ready
    scriptData := some c10Sd, files := some c10Files }

def c10St : St :=
  { jobs := [c10Job]
    store := fun k =>
      if k = "jX_mp3_1" then some (.b64 "oldmp3")
      else if k = "jX_webm_1" then some (.b64 "oldwebm")
      else if k = "jX_cover" then some (.b64 "oldcover")
      else none
    trace := [] }

/-- Witness for C10 at a concrete job whose previous run stored blobs under
timestamp-1 keys, re-run at timestamp 2. -/
theorem C10_regenerate_files_witness :
    ∃ st' uj merged,
      handleGenerateFiles c10Env c10Job 2 c10St = (st', .ok uj) ∧
      mergeAudioBuffers (successClips c10Env c10Sd.cast c10Sd.items) = .ok merged ∧
      st'.store (generateAudioKey c10Job.id "mp3" 2) =
        some (.blob (bufferToMp3 c10Env.mp3Encoder merged)) ∧
      (∃ v, st'.store (generateAudioKey c10Job.id "webm" 2) =
        some (.blob { mimeType := "video/webm", content := .webm v })) ∧
      uj.files = some
        { mp3Key := some (generateAudioKey c10Job.id "mp3" 2)
          webmKey := some (generateAudioKey c10Job.id "webm" 2)
          coverKey := some (c10Job.id ++ "_cover") } ∧
      getBatchJob c10Job.id st' = some { uj with updatedAt := 2 } ∧
      st'.store "jX_mp3_1" = some (.b64 "oldmp3") ∧
      st'.store "jX_webm_1" = some (.b64 "oldwebm") ∧
      (∀ k w, c10St.store k = some w → ∃ w', st'.store k = some w') ∧
      (∀ j' ∈ st'.jobs, "jX_mp3_1" ∉ referencedBlobKeys j' ∧
        "jX_webm_1" ∉ referencedBlobKeys j') :=
  C10_regenerate_files c10Env c10Job 2 c10St c10Sd c10Files "jX_mp3_1" "jX_webm_1"
    (.b64 "oldmp3") (.b64 "oldwebm") "CC"
    (by decide) rfl rfl rfl rfl (by decide) (by decide)
    (by unfold noSfxFailure; decide)
    (by intro s
        exact ⟨(by decide : c10Buf.wellFormed), (by decide : c10Buf.wellFormed)⟩)
    (fun _ => ⟨{ width := 1, height := 1 }, rfl⟩)
    (by decide) rfl rfl
    (by decide) (by decide) (by decide) (by decide) (by decide)
    (by decide) (by decide) (by decide) (by decide) (by decide)
    (by decide) (by decide) (by decide)
    (by decide)

/-! ## Claim C9: status monotonicity along the workflow path -/

/-- Position of each status along the forward pipeline path
`pending → script_ready → generating → files_ready → uploading → uploaded`.
The `error` state sits outside the path (no modelled operation ever departs
from it, so its rank is never compared from the left). -/
def statusRank : BatchJobStatus → ℕ
  | .pending => 0
  | .script_ready => 1
  | .generating => 2
  | .files_ready => 3
  | .uploading => 4
  | .uploaded => 5
  | .error => 6

/-- One persisted status transition is legal when it either sidesteps to
`error` or moves strictly forward along the path. -/
def forwardOrError (s s' : BatchJobStatus) : Prop :=
  s' = .error ∨ statusRank s < statusRank s'

/-- Every consecutive pair of a status-write sequence, starting from `s`, is
forward-or-error. -/
def chainFrom : BatchJobStatus → List BatchJobStatus → Prop
  | _, [] => True
  | s, s' :: rest => forwardOrError s s' ∧ chainFrom s' rest

/-- The statuses persisted for one job id, in write order. -/
def writesFor (id : String) (tr : List (String × BatchJobStatus)) : List BatchJobStatus :=
  (tr.filter (fun p => p.1 = id)).map (fun p => p.2)

/-- The status currently stored for a job id. -/
def jobStatus (st : St) (id : String) : Option BatchJobStatus :=
  (getBatchJob id st).map (fun j => j.status)

theorem writesFor_append (id : String) (a b : List (String × BatchJobStatus)) :
    writesFor id (a ++ b) = writesFor id a ++ writesFor id b := by
  simp [writesFor, List.filter_append]

theorem writesFor_nil_of_ne (id : String) (Δ : List (String × BatchJobStatus))
    (h : ∀ p ∈ Δ, p.1 ≠ id) : writesFor id Δ = [] := by
  unfold writesFor
  rw [List.filter_eq_nil_iff.mpr]
  · rfl
  · intro p hp
    simpa using h p hp

theorem getLastD_append {α : Type} (l1 l2 : List α) (d : α) :
    (l1 ++ l2).getLastD d = l2.getLastD (l1.getLastD d) := by
  induction l1 generalizing d with
  | nil => rfl
  | cons a l1 ih =>
    rw [List.cons_append, List.getLastD_cons, List.getLastD_cons]
    exact ih a

theorem chainFrom_append (s : BatchJobStatus) (l1 l2 : List BatchJobStatus)
    (h1 : chainFrom s l1) (h2 : chainFrom (l1.getLastD s) l2) :
    chainFrom s (l1 ++ l2) := by
  induction l1 generalizing s with
  | nil => exact h2
  | cons a l1 ih =>
    rw [List.getLastD_cons] at h2
    exact ⟨h1.1, ih a h1.2 h2⟩

theorem jobStatus_congr_jobs (id : String) (stA stB : St) (h : stA.jobs = stB.jobs) :
    jobStatus stA id = jobStatus stB id := by
  unfold jobStatus
  rw [getBatchJob_congr_jobs id stA stB h]

theorem jobStatus_updateBatchJob_self (id : String) (u : JobUpdates) (now : ℕ) (st : St) :
    jobStatus (updateBatchJob id u now st) id =
      (jobStatus st id).map (fun s0 => u.status.getD s0) := by
  unfold jobStatus
  rw [getBatchJob_updateBatchJob_self]
  cases getBatchJob id st <;> rfl

theorem jobStatus_updateBatchJob_other (id tid : String) (u : JobUpdates) (now : ℕ)
    (st : St) (hne : tid ≠ id) :
    jobStatus (updateBatchJob id u now st) tid = jobStatus st tid := by
  unfold jobStatus
  rw [getBatchJob_updateBatchJob_other id tid u now st hne]

theorem jobStatus_updateBatchJobFull_self (id : String) (newJob : BatchJob) (now : ℕ)
    (st : St) (hid : newJob.id = id) :
    jobStatus (updateBatchJobFull id newJob now st) id =
      (jobStatus st id).map (fun _ => newJob.status) := by
  unfold jobStatus
  rw [getBatchJob_updateBatchJobFull_self id newJob now st hid]
  cases getBatchJob id st <;> rfl

theorem jobStatus_updateBatchJobFull_other (id tid : String) (newJob : BatchJob)
    (now : ℕ) (st : St) (hid : newJob.id = id) (hne : tid ≠ id) :
    jobStatus (updateBatchJobFull id newJob now st) tid = jobStatus st tid := by
  unfold jobStatus
  rw [getBatchJob_updateBatchJobFull_other id tid newJob now st hid hne]

theorem any_id_of_jobStatus (st : St) (id : String) (s0 : BatchJobStatus)
    (h : jobStatus st id = some s0) :
    st.jobs.any (fun j => j.id = id) = true := by
  unfold jobStatus getBatchJob at h
  cases hfind : st.jobs.find? (fun j => decide (j.id = id)) with
  | none => rw [hfind] at h; exact absurd h (by simp)
  | some j0 =>
    have hmem := List.mem_of_find?_eq_some hfind
    have hp := List.find?_some hfind
    exact List.any_eq_true.mpr ⟨j0, hmem, hp⟩

theorem any_id_eq_ids (jobs : List BatchJob) (id : String) :
    jobs.any (fun j => j.id = id) =
      (jobs.map (fun j => j.id)).any (fun x => decide (x = id)) := by
  induction jobs with
  | nil => rfl
  | cons j js ih => simp only [List.any_cons, List.map_cons, ih]

/-- The trace entries appended by one status-carrying persistence call: a
single write when the id is present in the job list, nothing otherwise. -/
def traceDelta (id : String) (s : BatchJobStatus) (jobs : List BatchJob) :
    List (String × BatchJobStatus) :=
  if jobs.any (fun j => j.id = id) then [(id, s)] else []

theorem traceDelta_target (id : String) (s : BatchJobStatus) (jobs : List BatchJob) :
    ∀ p ∈ traceDelta id s jobs, p.1 = id := by
  intro p hp
  unfold traceDelta at hp
  by_cases h : jobs.any (fun j => j.id = id) = true
  · rw [if_pos h] at hp
    rcases List.mem_singleton.mp hp with rfl
    rfl
  · rw [if_neg h] at hp
    cases hp

theorem traceDelta_congr (id : String) (s : BatchJobStatus) (jobsA jobsB : List BatchJob)
    (h : jobsA.map (fun j => j.id) = jobsB.map (fun j => j.id)) :
    traceDelta id s jobsA = traceDelta id s jobsB := by
  unfold traceDelta
  rw [any_id_eq_ids, h, ← any_id_eq_ids]

theorem writesFor_traceDelta (id : String) (s : BatchJobStatus) (jobs : List BatchJob)
    (hany : jobs.any (fun j => j.id = id) = true) :
    writesFor id (traceDelta id s jobs) = [s] := by
  unfold traceDelta
  rw [if_pos hany]
  simp [writesFor]

theorem writesFor_traceDelta_other (id tid : String) (s : BatchJobStatus)
    (jobs : List BatchJob) (hne : tid ≠ id) :
    writesFor tid (traceDelta id s jobs) = [] := by
  apply writesFor_nil_of_ne
  intro p hp hc
  exact hne (hc ▸ traceDelta_target id s jobs p hp)

theorem updateBatchJob_trace_delta (id : String) (u : JobUpdates) (s : BatchJobStatus)
    (hu : u.status = some s) (now : ℕ) (st : St) :
    (updateBatchJob id u now st).trace = st.trace ++ traceDelta id s st.jobs := by
  unfold updateBatchJob traceDelta
  rw [hu]

theorem updateBatchJobFull_trace_delta (id : String) (newJob : BatchJob) (now : ℕ)
    (st : St) :
    (updateBatchJobFull id newJob now st).trace =
      st.trace ++ traceDelta id newJob.status st.jobs := rfl

theorem updateBatchJob_ids (id : String) (u : JobUpdates) (now : ℕ) (st : St) :
    (updateBatchJob id u now st).jobs.map (fun j => j.id) =
      st.jobs.map (fun j => j.id) :=
  map_update_ids st.jobs id (fun j => applyUpdates j u now) (fun _ h => h)

theorem updateBatchJobFull_ids (id : String) (newJob : BatchJob) (now : ℕ) (st : St)
    (hid : newJob.id = id) :
    (updateBatchJobFull id newJob now st).jobs.map (fun j => j.id) =
      st.jobs.map (fun j => j.id) :=
  map_update_ids st.jobs id (fun _ => { newJob with updatedAt := now }) (fun _ _ => hid)

/-- What one step handler may do to the workflow state: it preserves the
id list, returns (on success) a record carrying the target id, appends only
target-id writes to the trace, leaves every other job's status alone, and —
when the target job is present with a status strictly before the step's
entry point on the path — appends a forward-or-error chain of writes,
leaves the stored status at the last write, and ends at the step's exit
status whenever it succeeds. -/
def HandlerSpecAt (targetId : String) (entryRank : ℕ) (exitStatus : BatchJobStatus)
    (res : St × Except String BatchJob) (st : St) : Prop :=
  (res.1.jobs.map (fun j => j.id) = st.jobs.map (fun j => j.id)) ∧
  (∀ j, res.2 = Except.ok j → j.id = targetId) ∧
  ∃ Δ, res.1.trace = st.trace ++ Δ ∧
    (∀ p ∈ Δ, p.1 = targetId) ∧
    (∀ id, id ≠ targetId → jobStatus res.1 id = jobStatus st id) ∧
    (∀ s0, jobStatus st targetId = some s0 → statusRank s0 < entryRank →
      chainFrom s0 (writesFor targetId Δ) ∧
      jobStatus res.1 targetId = some ((writesFor targetId Δ).getLastD s0) ∧
      (∀ j, res.2 = Except.ok j →
        (writesFor targetId Δ).getLastD s0 = exitStatus))

def HandlerSpec (targetId : String) (entryRank : ℕ) (exitStatus : BatchJobStatus)
    (f : St → St × Except String BatchJob) : Prop :=
  ∀ st : St, HandlerSpecAt targetId entryRank exitStatus (f st) st

/-- A handler run that failed before touching the state. -/
theorem handlerSpecAt_noop (targetId : String) (entry : ℕ) (exit : BatchJobStatus)
    (st : St) (e : String) : HandlerSpecAt targetId entry exit (st, .error e) st := by
  unfold HandlerSpecAt
  refine ⟨rfl, ?_, [], by simp, ?_, ?_, ?_⟩
  · intro j h
    exact absurd h (by simp)
  · intro p hp
    cases hp
  · intro id _
    rfl
  · intro s0 h0 _
    exact ⟨trivial, h0, fun j h => absurd h (by simp)⟩

/-- A handler run that succeeds with a single full-record persistence. -/
theorem handlerSpecAt_onewrite_ok (targetId : String) (entry : ℕ) (s2 : BatchJobStatus)
    (hr : entry ≤ statusRank s2) (uj : BatchJob) (hujid : uj.id = targetId)
    (hujstat : uj.status = s2) (now : ℕ) (st : St) :
    HandlerSpecAt targetId entry s2 (updateBatchJobFull targetId uj now st, .ok uj) st := by
  unfold HandlerSpecAt
  refine ⟨updateBatchJobFull_ids targetId uj now st hujid, ?_,
    traceDelta targetId s2 st.jobs, ?_, traceDelta_target _ _ _, ?_, ?_⟩
  · intro j h
    injection h with h2
    subst h2
    exact hujid
  · have h1 := updateBatchJobFull_trace_delta targetId uj now st
    rw [hujstat] at h1
    exact h1
  · intro id hne
    exact jobStatus_updateBatchJobFull_other targetId id uj now st hujid hne
  · intro s0 h0 hrank
    have hany := any_id_of_jobStatus st targetId s0 h0
    rw [writesFor_traceDelta targetId s2 st.jobs hany]
    refine ⟨⟨Or.inr (lt_of_lt_of_le hrank hr), trivial⟩, ?_, fun j h => rfl⟩
    rw [jobStatus_updateBatchJobFull_self targetId uj now st hujid, h0,
      Option.map_some', hujstat]
    rfl

/-- A handler run that persists one intermediate status and then fails,
possibly after store-only side effects. -/
theorem handlerSpecAt_onewrite_fail (targetId : String) (entry : ℕ)
    (exit : BatchJobStatus) (s : BatchJobStatus) (hr : entry ≤ statusRank s)
    (u : JobUpdates) (hu : u.status = some s) (now : ℕ) (st res1 : St) (e : String)
    (hjobs : res1.jobs = (updateBatchJob targetId u now st).jobs)
    (htrace : res1.trace = (updateBatchJob targetId u now st).trace) :
    HandlerSpecAt targetId entry exit (res1, .error e) st := by
  unfold HandlerSpecAt
  have hids : res1.jobs.map (fun j => j.id) = st.jobs.map (fun j => j.id) := by
    rw [hjobs]
    exact updateBatchJob_ids targetId u now st
  refine ⟨hids, ?_, traceDelta targetId s st.jobs, ?_, traceDelta_target _ _ _, ?_, ?_⟩
  · intro j h
    exact absurd h (by simp)
  · rw [htrace]
    exact updateBatchJob_trace_delta targetId u s hu now st
  · intro id hne
    rw [jobStatus_congr_jobs id res1 (updateBatchJob targetId u now st) hjobs]
    exact jobStatus_updateBatchJob_other targetId id u now st hne
  · intro s0 h0 hrank
    have hany := any_id_of_jobStatus st targetId s0 h0
    rw [writesFor_traceDelta targetId s st.jobs hany]
    refine ⟨⟨Or.inr (lt_of_lt_of_le hrank hr), trivial⟩, ?_,
      fun j h => absurd h (by simp)⟩
    rw [jobStatus_congr_jobs targetId res1 (updateBatchJob targetId u now st) hjobs,
      jobStatus_updateBatchJob_self, h0, hu]
    rfl

/-- A handler run that persists one intermediate status, performs store-only
side effects, and then succeeds with a full-record persistence. -/
theorem handlerSpecAt_twowrite_ok (targetId : String) (entry : ℕ)
    (s1 s2 : BatchJobStatus) (hr1 : entry ≤ statusRank s1)
    (hr2 : statusRank s1 < statusRank s2) (u : JobUpdates) (hu : u.status = some s1)
    (now : ℕ) (st stMid : St) (uj : BatchJob) (hujid : uj.id = targetId)
    (hujstat : uj.status = s2)
    (hjobs : stMid.jobs = (updateBatchJob targetId u now st).jobs)
    (htrace : stMid.trace = (updateBatchJob targetId u now st).trace) :
    HandlerSpecAt targetId entry s2 (updateBatchJobFull targetId uj now stMid, .ok uj)
      st := by
  unfold HandlerSpecAt
  have hidsMid : stMid.jobs.map (fun j => j.id) = st.jobs.map (fun j => j.id) := by
    rw [hjobs]
    exact updateBatchJob_ids targetId u now st
  have hids : (updateBatchJobFull targetId uj now stMid).jobs.map (fun j => j.id) =
      st.jobs.map (fun j => j.id) := by
    rw [updateBatchJobFull_ids targetId uj now stMid hujid]
    exact hidsMid
  refine ⟨hids, ?_,
    traceDelta targetId s1 st.jobs ++ traceDelta targetId s2 st.jobs, ?_, ?_, ?_, ?_⟩
  · intro j h
    injection h with h2
    subst h2
    exact hujid
  · have h1 := updateBatchJobFull_trace_delta targetId uj now stMid
    rw [hujstat, traceDelta_congr targetId s2 stMid.jobs st.jobs hidsMid] at h1
    rw [h1, htrace, updateBatchJob_trace_delta targetId u s1 hu now st,
      List.append_assoc]
  · intro p hp
    rcases List.mem_append.mp hp with h | h
    · exact traceDelta_target _ _ _ p h
    · exact traceDelta_target _ _ _ p h
  · intro id hne
    rw [jobStatus_updateBatchJobFull_other targetId id uj now stMid hujid hne,
      jobStatus_congr_jobs id stMid (updateBatchJob targetId u now st) hjobs]
    exact jobStatus_updateBatchJob_other targetId id u now st hne
  · intro s0 h0 hrank
    have hany := any_id_of_jobStatus st targetId s0 h0
    rw [writesFor_append, writesFor_traceDelta targetId s1 st.jobs hany,
      writesFor_traceDelta targetId s2 st.jobs hany]
    have hmid : jobStatus stMid targetId = some s1 := by
      rw [jobStatus_congr_jobs targetId stMid (updateBatchJob targetId u now st) hjobs,
        jobStatus_updateBatchJob_self, h0, hu]
      rfl
    refine ⟨⟨Or.inr (lt_of_lt_of_le hrank hr1), Or.inr hr2, trivial⟩, ?_,
      fun j h => rfl⟩
    rw [jobStatus_updateBatchJobFull_self targetId uj now stMid hujid, hmid,
      Option.map_some', hujstat]
    rfl

/-- The `updatedJob` record built on `handleGenerateScript`'s success path. -/
def scriptReadyJob (env : Env) (job : BatchJob) (result : ScriptGenResult) : BatchJob :=
  { job with
    status := .script_ready
    scriptData := some
      { cast := result.cast.map (resolveCastMember env)
        items := result.items
        podcastInfo := result.podcastInfo } }

theorem handleGenerateScript_spec (env : Env) (job : BatchJob) (now : ℕ) :
    HandlerSpec job.id 1 .script_ready (handleGenerateScript env job now) := by
  intro st
  cases henv : env.scriptGen job.storyText with
  | error e =>
    have hfe : handleGenerateScript env job now st = (st, .error e) := by
      unfold handleGenerateScript
      rw [henv]
    rw [hfe]
    exact handlerSpecAt_noop job.id 1 .script_ready st e
  | ok result =>
    have hfe : handleGenerateScript env job now st =
        (updateBatchJobFull job.id (scriptReadyJob env job result) now st,
         .ok (scriptReadyJob env job result)) := by
      unfold handleGenerateScript scriptReadyJob
      rw [henv]
    rw [hfe]
    exact handlerSpecAt_onewrite_ok job.id 1 .script_ready (by decide)
      (scriptReadyJob env job result) rfl rfl now st

/-- The `updatedJob` record built on `handleUploadToYouTube`'s success path. -/
def uploadedJob (job : BatchJob) (videoId url : String) (now : ℕ) : BatchJob :=
  { job with
    status := .uploaded
    youtubeVideoId := some videoId
    youtubeUrl := some url
    uploadedAt := some now }

theorem handleUploadToYouTube_spec (env : Env) (job : BatchJob) (now : ℕ) :
    HandlerSpec job.id 4 .uploaded (handleUploadToYouTube env job now) := by
  intro st
  by_cases hweb : truthy (job.files.bind (·.webmKey)) = true
  · cases htok : env.token with
    | none =>
      have hfe : handleUploadToYouTube env job now st =
          (st, .error "Not logged in to YouTube") := by
        unfold handleUploadToYouTube
        rw [if_pos hweb]
        simp only [htok]
      rw [hfe]
      exact handlerSpecAt_noop job.id 4 .uploaded st _
    | some tok =>
      cases hload : loadAudioBlob ((job.files.bind (·.webmKey)).getD "")
          (updateBatchJob job.id { status := some .uploading } now st) with
      | none =>
        have hfe : handleUploadToYouTube env job now st =
            (updateBatchJob job.id { status := some .uploading } now st,
             .error "WebM file not found") := by
          unfold handleUploadToYouTube
          rw [if_pos hweb]
          simp only [htok, hload]
        rw [hfe]
        exact handlerSpecAt_onewrite_fail job.id 4 .uploaded .uploading (by decide)
          { status := some .uploading } rfl now st _ _ rfl rfl
      | some webmBlob =>
        cases hup : env.upload webmBlob with
        | error e =>
          have hfe : handleUploadToYouTube env job now st =
              (updateBatchJob job.id { status := some .uploading } now st,
               .error e) := by
            unfold handleUploadToYouTube
            rw [if_pos hweb]
            simp only [htok, hload, hup]
          rw [hfe]
          exact handlerSpecAt_onewrite_fail job.id 4 .uploaded .uploading (by decide)
            { status := some .uploading } rfl now st _ e rfl rfl
        | ok p =>
          obtain ⟨videoId, url⟩ := p
          have hfe : handleUploadToYouTube env job now st =
              (updateBatchJobFull job.id (uploadedJob job videoId url now) now
                (updateBatchJob job.id { status := some .uploading } now st),
               .ok (uploadedJob job videoId url now)) := by
            unfold handleUploadToYouTube uploadedJob
            rw [if_pos hweb]
            simp only [htok, hload, hup]
          rw [hfe]
          exact handlerSpecAt_twowrite_ok job.id 4 .uploading .uploaded (by decide)
            (by decide) { status := some .uploading } rfl now st _
            (uploadedJob job videoId url now) rfl rfl rfl rfl
  · have hfe : handleUploadToYouTube env job now st = (st, .error "No WebM file") := by
      unfold handleUploadToYouTube
      rw [if_neg hweb]
    rw [hfe]
    exact handlerSpecAt_noop job.id 4 .uploaded st _

/-- Shape analysis of a `handleGenerateFiles` run on a job holding script
data: either it fails with the per-item loop's final state, or it succeeds
with a full-record `files_ready` persistence over a state whose job list and
trace are the loop's (the artifact saves in between touch only the blob
store). -/
theorem handleGenerateFiles_cases (env : Env) (job : BatchJob)
    (sd : BatchJobScriptData)
    (hsd : job.scriptData = some sd) (now : ℕ) (st : St) :
    (∃ e, handleGenerateFiles env job now st =
      ((processItems env job.id sd.cast sd.items
          (updateBatchJob job.id { status := some .generating } now st)).1,
        .error e)) ∨
    (∃ uj st5, handleGenerateFiles env job now st =
        (updateBatchJobFull job.id uj now st5, .ok uj) ∧
      uj.id = job.id ∧ uj.status = .files_ready ∧
      st5.jobs = (processItems env job.id sd.cast sd.items
          (updateBatchJob job.id { status := some .generating } now st)).1.jobs ∧
      st5.trace = (processItems env job.id sd.cast sd.items
          (updateBatchJob job.id { status := some .generating } now st)).1.trace) := by
  unfold handleGenerateFiles
  rw [hsd]
  simp only []
  repeat' split
  all_goals first
    | exact Or.inl ⟨_, rfl⟩
    | exact Or.inr ⟨_, _, rfl, rfl, rfl, rfl, rfl⟩

theorem handleGenerateFiles_spec (env : Env) (job : BatchJob) (now : ℕ) :
    HandlerSpec job.id 2 .files_ready (handleGenerateFiles env job now) := by
  intro st
  cases hsd : job.scriptData with
  | none =>
    have hfe : handleGenerateFiles env job now st = (st, .error "No script data") := by
      unfold handleGenerateFiles
      rw [hsd]
    rw [hfe]
    exact handlerSpecAt_noop job.id 2 .files_ready st _
  | some sd =>
    have hps := processItems_state env job.id sd.cast sd.items
      (updateBatchJob job.id { status := some .generating } now st)
    rcases handleGenerateFiles_cases env job sd hsd now st with
      ⟨e, hfe⟩ | ⟨uj, st5, hfe, hujid, hujstat, hjobs, htrace⟩
    · rw [hfe]
      exact handlerSpecAt_onewrite_fail job.id 2 .files_ready .generating (by decide)
        { status := some .generating } rfl now st _ e hps.1 hps.2
    · rw [hfe]
      exact handlerSpecAt_twowrite_ok job.id 2 .generating .files_ready (by decide)
        (by decide) { status := some .generating } rfl now st st5 uj hujid hujstat
        (hjobs.trans hps.1) (htrace.trans hps.2)

/-- What the states before and after one (partial) iteration of a batch
loop may differ by, as a function of the iterated job's id and the status
the loop filtered on. -/
def BodySpecAt (targetId : String) (required : BatchJobStatus) (st' st : St) : Prop :=
  (st'.jobs.map (fun j => j.id) = st.jobs.map (fun j => j.id)) ∧
  ∃ Δ, st'.trace = st.trace ++ Δ ∧
    (∀ p ∈ Δ, p.1 = targetId) ∧
    (∀ id, id ≠ targetId → jobStatus st' id = jobStatus st id) ∧
    (jobStatus st targetId = some required →
      chainFrom required (writesFor targetId Δ) ∧
      jobStatus st' targetId = some ((writesFor targetId Δ).getLastD required))

/-- What one full iteration of a batch loop does to the state. -/
def BodySpec (targetId : String) (required : BatchJobStatus) (body : St → St) : Prop :=
  ∀ st : St, BodySpecAt targetId required (body st) st

theorem bodySpecAt_refl (targetId : String) (required : BatchJobStatus) (st : St) :
    BodySpecAt targetId required st st := by
  unfold BodySpecAt
  refine ⟨rfl, [], by simp, ?_, ?_, ?_⟩
  · intro p hp
    cases hp
  · intro id _
    rfl
  · intro h0
    exact ⟨trivial, h0⟩

/-- Extending a partial iteration by one handler run whose entry point lies
behind the status the target job holds at that point. -/
theorem bodySpecAt_extend (targetId : String) (required : BatchJobStatus)
    (st stA : St) (h : BodySpecAt targetId required stA st) (entry : ℕ)
    (exit : BatchJobStatus) (res : St × Except String BatchJob)
    (hres : HandlerSpecAt targetId entry exit res stA)
    (hcond : jobStatus st targetId = some required →
      ∃ sA, jobStatus stA targetId = some sA ∧ statusRank sA < entry) :
    BodySpecAt targetId required res.1 st := by
  obtain ⟨hidsA, ΔA, htrA, hwtA, hothA, hcA⟩ := h
  obtain ⟨hidsR, _, ΔR, htrR, hwtR, hothR, hsR⟩ := hres
  unfold BodySpecAt
  refine ⟨hidsR.trans hidsA, ΔA ++ ΔR, ?_, ?_, ?_, ?_⟩
  · rw [htrR, htrA, List.append_assoc]
  · intro p hp
    rcases List.mem_append.mp hp with hh | hh
    · exact hwtA p hh
    · exact hwtR p hh
  · intro id hne
    exact (hothR id hne).trans (hothA id hne)
  · intro h0
    obtain ⟨chainA, hlastA⟩ := hcA h0
    obtain ⟨sA, hsA, hrankA⟩ := hcond h0
    have hsAeq : sA = (writesFor targetId ΔA).getLastD required := by
      have := hsA.symm.trans hlastA
      exact Option.some.inj this
    obtain ⟨chainR, hlastR, _⟩ := hsR sA hsA hrankA
    rw [writesFor_append]
    constructor
    · refine chainFrom_append required _ _ chainA ?_
      rw [← hsAeq]
      exact chainR
    · rw [getLastD_append, ← hsAeq]
      exact hlastR

/-- Closing a partial iteration with the loop's catch: mark the target job
`error`. -/
theorem bodySpecAt_error_catch (targetId : String) (required : BatchJobStatus)
    (st st1 : St) (e : String) (now : ℕ)
    (h : BodySpecAt targetId required st1 st) :
    BodySpecAt targetId required
      (updateBatchJob targetId { status := some .error, error := some e } now st1)
      st := by
  obtain ⟨hids, Δ, htr, hwt, hoth, hc⟩ := h
  unfold BodySpecAt
  refine ⟨(updateBatchJob_ids targetId _ now st1).trans hids,
    Δ ++ traceDelta targetId .error st1.jobs, ?_, ?_, ?_, ?_⟩
  · rw [updateBatchJob_trace_delta targetId _ .error rfl now st1, htr,
      List.append_assoc]
  · intro p hp
    rcases List.mem_append.mp hp with hh | hh
    · exact hwt p hh
    · exact traceDelta_target _ _ _ p hh
  · intro id hne
    rw [jobStatus_updateBatchJob_other targetId id _ now st1 hne]
    exact hoth id hne
  · intro h0
    obtain ⟨hchain, hlast⟩ := hc h0
    have hany1 : st1.jobs.any (fun j => j.id = targetId) = true :=
      any_id_of_jobStatus st1 targetId _ hlast
    have hwf : writesFor targetId (Δ ++ traceDelta targetId .error st1.jobs) =
        writesFor targetId Δ ++ [.error] := by
      rw [writesFor_append, writesFor_traceDelta targetId .error st1.jobs hany1]
    rw [hwf]
    constructor
    · exact chainFrom_append required _ _ hchain ⟨Or.inl rfl, trivial⟩
    · rw [jobStatus_updateBatchJob_self, hlast, Option.map_some', getLastD_append]
      rfl

/-- A loop body of the form `try handler catch mark-error` satisfies the
body spec whenever the handler satisfies its spec and the loop's filter
status lies strictly before the handler's entry point. -/
theorem bodySpec_catch (targetId : String) (entry : ℕ) (exit : BatchJobStatus)
    (f : St → St × Except String BatchJob) (hf : HandlerSpec targetId entry exit f)
    (required : BatchJobStatus) (hreq : statusRank required < entry) (now : ℕ) :
    BodySpec targetId required (fun st =>
      match f st with
      | (st1, .ok _) => st1
      | (st1, .error e) =>
        updateBatchJob targetId { status := some .error, error := some e } now st1) := by
  intro st
  have hres := hf st
  rcases hfr : f st with ⟨st1, r⟩
  rw [hfr] at hres
  simp only [hfr]
  cases r with
  | ok j =>
    exact bodySpecAt_extend targetId required st st (bodySpecAt_refl _ _ _) entry exit
      (st1, .ok j) hres (fun h0 => ⟨required, h0, hreq⟩)
  | error e =>
    exact bodySpecAt_error_catch targetId required st st1 e now
      (bodySpecAt_extend targetId required st st (bodySpecAt_refl _ _ _) entry exit
        (st1, .error e) hres (fun h0 => ⟨required, h0, hreq⟩))

/-- The loop body of `handleAutoProcessAll`: script generation, file
generation and upload chained on one job, with the shared catch marking the
job `error`. -/
theorem bodySpec_auto (env : Env) (job : BatchJob) (now : ℕ) :
    BodySpec job.id .pending (fun st =>
      match handleGenerateScript env job now st with
      | (st1, .error e) =>
        updateBatchJob job.id { status := some .error, error := some e } now st1
      | (st1, .ok j1) =>
        match handleGenerateFiles env j1 now st1 with
        | (st2, .error e) =>
          updateBatchJob job.id { status := some .error, error := some e } now st2
        | (st2, .ok j2) =>
          match handleUploadToYouTube env j2 now st2 with
          | (st3, .error e) =>
            updateBatchJob job.id { status := some .error, error := some e } now st3
          | (st3, .ok _) => st3) := by
  intro st
  have hres1 := handleGenerateScript_spec env job now st
  rcases h1 : handleGenerateScript env job now st with ⟨st1, r1⟩
  rw [h1] at hres1
  simp only [h1]
  cases r1 with
  | error e =>
    exact bodySpecAt_error_catch job.id .pending st st1 e now
      (bodySpecAt_extend job.id .pending st st (bodySpecAt_refl _ _ _) 1 .script_ready
        (st1, .error e) hres1 (fun h0 => ⟨.pending, h0, by decide⟩))
  | ok j1 =>
    have hseg1 : BodySpecAt job.id .pending st1 st :=
      bodySpecAt_extend job.id .pending st st (bodySpecAt_refl _ _ _) 1 .script_ready
        (st1, .ok j1) hres1 (fun h0 => ⟨.pending, h0, by decide⟩)
    obtain ⟨hids1, hok1, Δ1, htr1, hwt1, hoth1, hs01⟩ := hres1
    have hj1 : j1.id = job.id := hok1 j1 rfl
    have hstat1 : jobStatus st job.id = some .pending →
        jobStatus st1 job.id = some .script_ready := by
      intro h0
      obtain ⟨_, hlast, hexit⟩ := hs01 .pending h0 (by decide)
      rw [hexit j1 rfl] at hlast
      exact hlast
    have hres2 := handleGenerateFiles_spec env j1 now st1
    rw [hj1] at hres2
    rcases h2 : handleGenerateFiles env j1 now st1 with ⟨st2, r2⟩
    rw [h2] at hres2
    simp only [h2]
    cases r2 with
    | error e =>
      exact bodySpecAt_error_catch job.id .pending st st2 e now
        (bodySpecAt_extend job.id .pending st st1 hseg1 2 .files_ready (st2, .error e)
          hres2 (fun h0 => ⟨.script_ready, hstat1 h0, by decide⟩))
    | ok j2 =>
      have hseg2 : BodySpecAt job.id .pending st2 st :=
        bodySpecAt_extend job.id .pending st st1 hseg1 2 .files_ready (st2, .ok j2)
          hres2 (fun h0 => ⟨.script_ready, hstat1 h0, by decide⟩)
      obtain ⟨hids2, hok2, Δ2, htr2, hwt2, hoth2, hs02⟩ := hres2
      have hj2 : j2.id = job.id := hok2 j2 rfl
      have hstat2 : jobStatus st job.id = some .pending →
          jobStatus st2 job.id = some .files_ready := by
        intro h0
        obtain ⟨_, hlast, hexit⟩ := hs02 .script_ready (hstat1 h0) (by decide)
        rw [hexit j2 rfl] at hlast
        exact hlast
      have hres3 := handleUploadToYouTube_spec env j2 now st2
      rw [hj2] at hres3
      rcases h3 : handleUploadToYouTube env j2 now st2 with ⟨st3, r3⟩
      rw [h3] at hres3
      simp only [h3]
      cases r3 with
      | error e =>
        exact bodySpecAt_error_catch job.id .pending st st3 e now
          (bodySpecAt_extend job.id .pending st st2 hseg2 4 .uploaded (st3, .error e)
            hres3 (fun h0 => ⟨.files_ready, hstat2 h0, by decide⟩))
      | ok j3 =>
        exact bodySpecAt_extend job.id .pending st st2 hseg2 4 .uploaded (st3, .ok j3)
          hres3 (fun h0 => ⟨.files_ready, hstat2 h0, by decide⟩)

theorem find?_id_of_mem (jobs : List BatchJob)
    (hnd : (jobs.map (fun j => j.id)).Nodup) (job : BatchJob) (hmem : job ∈ jobs) :
    jobs.find? (fun j => decide (j.id = job.id)) = some job := by
  induction jobs with
  | nil => cases hmem
  | cons j js ih =>
    rw [List.map_cons, List.nodup_cons] at hnd
    rcases List.mem_cons.mp hmem with rfl | hmem2
    · exact List.find?_cons_of_pos _ (by simp)
    · have hne : ¬ (j.id = job.id) := by
        intro hh
        exact hnd.1 (hh ▸ List.mem_map_of_mem (fun x => x.id) hmem2)
      rw [List.find?_cons_of_neg _ (by simpa using hne)]
      exact ih hnd.2 hmem2

theorem getBatchJob_of_mem (st : St) (hnd : (st.jobs.map (fun j => j.id)).Nodup)
    (job : BatchJob) (hmem : job ∈ st.jobs) : getBatchJob job.id st = some job := by
  unfold getBatchJob
  exact find?_id_of_mem st.jobs hnd job hmem

/-- Folding a spec-abiding loop body over a duplicate-free list of jobs all
currently holding the loop's filter status: the trace grows by writes naming
only iterated jobs, and every job's stored status follows a forward-or-error
chain from where it started. -/
theorem foldl_bodySpec (required : BatchJobStatus) (body : BatchJob → St → St)
    (hbody : ∀ job, BodySpec job.id required (body job)) :
    ∀ (js : List BatchJob) (st : St),
      ((js.map (fun j => j.id)).Nodup) →
      (∀ job ∈ js, jobStatus st job.id = some required) →
      ∃ Δ, (js.foldl (fun acc job => body job acc) st).trace = st.trace ++ Δ ∧
        ((js.foldl (fun acc job => body job acc) st).jobs.map (fun j => j.id) =
          st.jobs.map (fun j => j.id)) ∧
        (∀ p ∈ Δ, p.1 ∈ js.map (fun j => j.id)) ∧
        (∀ id s0, jobStatus st id = some s0 →
          chainFrom s0 (writesFor id Δ) ∧
          jobStatus (js.foldl (fun acc job => body job acc) st) id =
            some ((writesFor id Δ).getLastD s0)) := by
  intro js
  induction js with
  | nil =>
    intro st _ _
    refine ⟨[], by simp, rfl, ?_, ?_⟩
    · intro p hp
      cases hp
    · intro id s0 h0
      exact ⟨trivial, h0⟩
  | cons job js ih =>
    intro st hnd hpre
    rw [List.map_cons, List.nodup_cons] at hnd
    obtain ⟨hids1, Δ1, htr1, hwt1, hoth1, hc1⟩ := hbody job st
    have hpre2 : ∀ j ∈ js, jobStatus (body job st) j.id = some required := by
      intro j hj
      have hjid : j.id ≠ job.id := by
        intro hh
        exact hnd.1 (hh ▸ List.mem_map_of_mem (fun x => x.id) hj)
      rw [hoth1 j.id hjid]
      exact hpre j (List.mem_cons_of_mem job hj)
    obtain ⟨ΔR, htrR, hidsR, hwtR, hclR⟩ := ih (body job st) hnd.2 hpre2
    refine ⟨Δ1 ++ ΔR, ?_, ?_, ?_, ?_⟩
    · show (js.foldl (fun acc j => body j acc) (body job st)).trace = _
      rw [htrR, htr1, List.append_assoc]
    · show (js.foldl (fun acc j => body j acc) (body job st)).jobs.map _ = _
      rw [hidsR, hids1]
    · intro p hp
      rcases List.mem_append.mp hp with hh | hh
      · rw [List.map_cons, hwt1 p hh]
        exact List.mem_cons_self _ _
      · rw [List.map_cons]
        exact List.mem_cons_of_mem _ (hwtR p hh)
    · intro id s0 h0
      by_cases hid : id = job.id
      · subst hid
        have hs0req : s0 = required := by
          have hh := (hpre job (List.mem_cons_self job js)).symm.trans h0
          exact (Option.some.inj hh).symm
        subst hs0req
        obtain ⟨hchain1, hlast1⟩ := hc1 h0
        have hwfR : writesFor job.id ΔR = [] := by
          apply writesFor_nil_of_ne
          intro p hp hh
          exact hnd.1 (hh ▸ hwtR p hp)
        obtain ⟨_, hlastR⟩ := hclR job.id _ hlast1
        rw [hwfR] at hlastR
        constructor
        · rw [writesFor_append, hwfR, List.append_nil]
          exact hchain1
        · rw [writesFor_append, hwfR, List.append_nil]
          exact hlastR
      · have hwf1 : writesFor id Δ1 = [] := by
          apply writesFor_nil_of_ne
          intro p hp hh
          exact hid (hh.symm.trans (hwt1 p hp))
        have h0R : jobStatus (body job st) id = some s0 := by
          rw [hoth1 id hid]
          exact h0
        obtain ⟨hchainR, hlastR⟩ := hclR id s0 h0R
        constructor
        · rw [writesFor_append, hwf1, List.nil_append]
          exact hchainR
        · rw [writesFor_append, hwf1, List.nil_append]
          exact hlastR

/-- What one UI batch operation does to the state: ids preserved, and every
present job's stored status follows a forward-or-error chain of the writes
appended for its id. -/
def OpSpec (f : St → St) : Prop :=
  ∀ st : St, (st.jobs.map (fun j => j.id)).Nodup →
    ((f st).jobs.map (fun j => j.id) = st.jobs.map (fun j => j.id)) ∧
    ∃ Δ, (f st).trace = st.trace ++ Δ ∧
      ∀ id s0, jobStatus st id = some s0 →
        chainFrom s0 (writesFor id Δ) ∧
        jobStatus (f st) id = some ((writesFor id Δ).getLastD s0)

theorem opSpec_filter_fold (required : BatchJobStatus) (body : BatchJob → St → St)
    (hbody : ∀ job, BodySpec job.id required (body job)) :
    OpSpec (fun st => (st.jobs.filter (fun j => j.status = required)).foldl
      (fun acc job => body job acc) st) := by
  intro st hnd
  have hsub : List.Sublist
      ((st.jobs.filter (fun j => j.status = required)).map (fun j => j.id))
      (st.jobs.map (fun j => j.id)) :=
    (List.filter_sublist st.jobs).map (fun j => j.id)
  have hndF := List.Nodup.sublist hsub hnd
  have hpre : ∀ job ∈ st.jobs.filter (fun j => j.status = required),
      jobStatus st job.id = some required := by
    intro job hj
    have hmem := List.mem_of_mem_filter hj
    have hpj := List.of_mem_filter hj
    have hstat : job.status = required := by simpa using hpj
    unfold jobStatus
    rw [getBatchJob_of_mem st hnd job hmem, Option.map_some', hstat]
  obtain ⟨Δ, htr, hids, _, hcl⟩ := foldl_bodySpec required body hbody
    (st.jobs.filter (fun j => j.status = required)) st hndF hpre
  exact ⟨hids, Δ, htr, hcl⟩

theorem opSpec_generateAllScripts (env : Env) (now : ℕ) :
    OpSpec (handleGenerateAllScripts env now) :=
  opSpec_filter_fold .pending _ (fun job =>
    bodySpec_catch job.id 1 .script_ready (handleGenerateScript env job now)
      (handleGenerateScript_spec env job now) .pending (by decide) now)

theorem opSpec_generateAllFiles (env : Env) (now : ℕ) :
    OpSpec (handleGenerateAllFiles env now) :=
  opSpec_filter_fold .script_ready _ (fun job =>
    bodySpec_catch job.id 2 .files_ready (handleGenerateFiles env job now)
      (handleGenerateFiles_spec env job now) .script_ready (by decide) now)

theorem opSpec_uploadAll (env : Env) (now : ℕ) :
    OpSpec (handleUploadAll env now) :=
  opSpec_filter_fold .files_ready _ (fun job =>
    bodySpec_catch job.id 4 .uploaded (handleUploadToYouTube env job now)
      (handleUploadToYouTube_spec env job now) .files_ready (by decide) now)

theorem opSpec_autoProcessAll (env : Env) (now : ℕ) :
    OpSpec (handleAutoProcessAll env now) :=
  opSpec_filter_fold .pending _ (fun job => bodySpec_auto env job now)

theorem opSpec_runBatchOp (op : BatchOp) (env : Env) (now : ℕ) :
    OpSpec (runBatchOp op env now) := by
  cases op with
  | generateAllScripts => exact opSpec_generateAllScripts env now
  | generateAllFiles => exact opSpec_generateAllFiles env now
  | uploadAll => exact opSpec_uploadAll env now
  | autoProcessAll => exact opSpec_autoProcessAll env now

theorem runBatchOps_spec (ops : List (BatchOp × Env × ℕ)) :
    ∀ st : St, (st.jobs.map (fun j => j.id)).Nodup →
      ((runBatchOps ops st).jobs.map (fun j => j.id) = st.jobs.map (fun j => j.id)) ∧
      ∃ Δ, (runBatchOps ops st).trace = st.trace ++ Δ ∧
        ∀ id s0, jobStatus st id = some s0 →
          chainFrom s0 (writesFor id Δ) ∧
          jobStatus (runBatchOps ops st) id = some ((writesFor id Δ).getLastD s0) := by
  induction ops with
  | nil =>
    intro st _
    refine ⟨rfl, [], by simp [runBatchOps], ?_⟩
    intro id s0 h0
    exact ⟨trivial, h0⟩
  | cons p ops ih =>
    intro st hnd
    obtain ⟨op, env, now⟩ := p
    obtain ⟨hids1, Δ1, htr1, hcl1⟩ := opSpec_runBatchOp op env now st hnd
    have hnd1 : ((runBatchOp op env now st).jobs.map (fun j => j.id)).Nodup := by
      rw [hids1]
      exact hnd
    obtain ⟨hidsR, ΔR, htrR, hclR⟩ := ih (runBatchOp op env now st) hnd1
    refine ⟨?_, Δ1 ++ ΔR, ?_, ?_⟩
    · show (runBatchOps ops (runBatchOp op env now st)).jobs.map _ = _
      rw [hidsR, hids1]
    · show (runBatchOps ops (runBatchOp op env now st)).trace = _
      rw [htrR, htr1, List.append_assoc]
    · intro id s0 h0
      obtain ⟨hchain1, hlast1⟩ := hcl1 id s0 h0
      obtain ⟨hchainR, hlastR⟩ := hclR id _ hlast1
      rw [writesFor_append]
      constructor
      · exact chainFrom_append s0 _ _ hchain1 hchainR
      · rw [getLastD_append]
        exact hlastR

/-- C9: for every job and every sequence of the UI batch workflow
operations — the batch loops that invoke script generation, file generation
and upload, and the chained auto-process loop — assuming the stored job ids
are distinct, the run appends a trace of persisted status writes in which
the writes naming each job form a chain from its starting status whose
every step either moves strictly forward along
`pending → script_ready → generating → files_ready → uploading → uploaded`
(statusRank strictly increases) or sidesteps to `error`, and the job's
stored status afterwards equals the last such write (its starting status
when no write names it); in particular no step invocation ever moves a
job's status backward along the path. -/
theorem C9_status_monotonic (ops : List (BatchOp × Env × ℕ)) (st : St)
    (hnd : (st.jobs.map (fun j => j.id)).Nodup) :
    ∃ Δ, (runBatchOps ops st).trace = st.trace ++ Δ ∧
      ∀ id s0, jobStatus st id = some s0 →
        chainFrom s0 (writesFor id Δ) ∧
        jobStatus (runBatchOps ops st) id = some ((writesFor id Δ).getLastD s0) := by
  obtain ⟨_, Δ, htr, hcl⟩ := runBatchOps_spec ops st hnd
  exact ⟨Δ, htr, hcl⟩

/-- A concrete scenario for C9: one pending job and one run of the
generate-all-scripts batch loop with a collaborator that succeeds. -/
def c9Env : Env :=
  { scriptGen := fun _ => .ok { cast := [], items := [] }
    ttsProvider := "gemini"
    elevenLabsVoices := []
    tts := fun _ _ _ => .error "unused"
    decodePCM := fun _ => { sampleRate := 44100, channelData := [[0]] }
    decodeFile := fun _ => { sampleRate := 44100, channelData := [[0]] }
    sfxGen := fun _ => .error "unused"
    geminiApiKey := false
    elevenLabsApiKey := false
    coverGen := fun _ => .error "unused"
    mp3Encoder := fun _ => .ok []
    loadImage := fun _ => .error "unused"
    token := none
    upload := fun _ => .error "unused" }

def c9Job : BatchJob := { id := "j1", storyText := "story", status := .pending }

def c9St : St := { jobs := [c9Job], store := fun _ => none, trace := [] }

def c9Ops : List (BatchOp × Env × ℕ) := [(BatchOp.generateAllScripts, c9Env, 7)]

theorem C9_status_monotonic_witness :
    ((c9St.jobs.map (fun j => j.id)).Nodup) ∧
    ∃ Δ, (runBatchOps c9Ops c9St).trace = c9St.trace ++ Δ ∧
      ∀ id s0, jobStatus c9St id = some s0 →
        chainFrom s0 (writesFor id Δ) ∧
        jobStatus (runBatchOps c9Ops c9St) id = some ((writesFor id Δ).getLastD s0) :=
  ⟨by decide, C9_status_monotonic c9Ops c9St (by decide)⟩

end VoiceDrama
